import Mathlib

/-!
Verification development for the skt kernel-CI pipeline driver.

The Python sources are shallowly embedded: every external effect (git
subprocesses, the filesystem, the test scheduler, the publisher) is an
explicit oracle value handed to the embedded function, and every state
write performed through save_state is recorded in an append-ordered log
of key/value pairs.  Python None is modelled with Option, Python
exceptions with Except, and Python dictionaries with association lists
over String keys.
-/

set_option autoImplicit false
set_option linter.unusedVariables false

/-- Lookup in an association list with String-like keys: first binding wins,
mirroring a Python dict in which each key is stored once. -/
def getK {α : Type} : List (String × α) → String → Option α
  | [], _ => none
  | (k', v') :: rest, k => if k' = k then some v' else getK rest k

/-- Update of an association list: replace the first binding of the key in
place, or append a fresh binding at the end (Python dict assignment). -/
def setK {α : Type} : List (String × α) → String → α → List (String × α)
  | [], k, v => [(k, v)]
  | (k', v') :: rest, k, v =>
      if k' = k then (k, v) :: rest else (k', v') :: setK rest k v

theorem getK_setK_same {α : Type} (l : List (String × α)) (k : String) (v : α) :
    getK (setK l k v) k = some v := by
  induction l with
  | nil => simp [setK, getK]
  | cons hd tl ih =>
      obtain ⟨k', v'⟩ := hd
      by_cases h : k' = k <;> simp [setK, getK, h, ih]

theorem getK_setK_ne {α : Type} (l : List (String × α)) (k k' : String) (v : α)
    (h : k' ≠ k) : getK (setK l k' v) k = getK l k := by
  induction l with
  | nil => simp [setK, getK, h]
  | cons hd tl ih =>
      obtain ⟨k₀, v₀⟩ := hd
      simp only [setK]
      by_cases h0 : k₀ = k'
      · subst h0
        simp [getK, h]
      · by_cases h1 : k₀ = k <;> simp [getK, h0, h1, ih, Ne.symm h]

theorem getK_append {α : Type} (x y : List (String × α)) (k : String) :
    getK (x ++ y) k = (getK x k).orElse fun _ => getK y k := by
  induction x with
  | nil => simp [getK, Option.orElse]
  | cons hd tl ih =>
      obtain ⟨k₀, v₀⟩ := hd
      by_cases h : k₀ = k
      · simp [getK, h, Option.orElse]
      · simp [getK, h, ih]

/-- Lookup in the append-ordered save_state log: the LAST write of a key is
the value the on-disk state section holds, because save_state overwrites
the per-key entry each time it runs. -/
def lookupSaved (l : List (String × Option String)) (k : String) :
    Option (Option String) :=
  getK l.reverse k

theorem lookupSaved_append (a b : List (String × Option String)) (k : String) :
    lookupSaved (a ++ b) k =
      (lookupSaved b k).orElse fun _ => lookupSaved a k := by
  simp [lookupSaved, List.reverse_append, getK_append]

/-- Python "%02d" formatting of a nonnegative integer: zero-pad to width two. -/
def pad2 (n : Nat) : String :=
  if n < 10 then "0" ++ toString n else toString n

/-- String prefix test on the underlying character lists (used instead of
the runtime String.startsWith so that terms reduce inside the kernel). -/
def strStartsWith (s p : String) : Bool :=
  p.data.isPrefixOf s.data

/-- Drop the first n characters of a string (Python s[n:] on the strings
appearing here, which are plain ASCII). -/
def strDrop (s : String) (n : Nat) : String :=
  ⟨s.data.drop n⟩

namespace PyPath

/-!
Embeddings of the posixpath functions skt.py calls (os.path.basename,
os.path.dirname, os.path.join) and of str.replace for the ".csv"
pattern, working on the underlying character lists.
-/

/-- The tail of posixpath.split: everything after the last slash. -/
def basenameL (l : List Char) : List Char :=
  (l.reverse.takeWhile (fun c => c != '/')).reverse

/-- The raw head of posixpath.split: everything up to and including the
last slash (empty when there is no slash). -/
def headL (l : List Char) : List Char :=
  (l.reverse.dropWhile (fun c => c != '/')).reverse

/-- Strip trailing slashes (the rstrip applied by posixpath.split). -/
def rstripSlashL (l : List Char) : List Char :=
  (l.reverse.dropWhile (fun c => c == '/')).reverse

/-- posixpath.dirname on a character list: the head of the split,
rstripped of trailing slashes unless it is empty or all slashes. -/
def dirnameL (l : List Char) : List Char :=
  let head := headL l
  if head ≠ [] ∧ ¬ head.all (fun c => c == '/') then rstripSlashL head
  else head

/-- os.path.basename. -/
def pyBasename (s : String) : String :=
  ⟨basenameL s.data⟩

/-- os.path.dirname. -/
def pyDirname (s : String) : String :=
  ⟨dirnameL s.data⟩

/-- os.path.join for two components: an absolute second component wins;
otherwise the parts are glued, inserting a slash unless the first part
is empty or already ends in a slash. -/
def pyJoin (a b : String) : String :=
  if b.data.head? = some '/' then b
  else if a = "" ∨ a.data.getLast? = some '/' then a ++ b
  else a ++ "/" ++ b

/-- Python str.replace(".csv", rep): replace every non-overlapping
occurrence of ".csv", scanning left to right. -/
def csvReplace (rep : List Char) : List Char → List Char
  | [] => []
  | c :: cs =>
      if c = '.' ∧ cs.take 3 = ['c', 's', 'v'] then
        rep ++ csvReplace rep (cs.drop 3)
      else
        c :: csvReplace rep cs
termination_by l => l.length
decreasing_by
  all_goals simp only [List.length_cons, List.length_drop]
  all_goals omega

/-- String-level wrapper for s.replace(".csv", rep). -/
def pyReplaceCsv (s rep : String) : String :=
  ⟨csvReplace rep.data s.data⟩

/-- A string without slashes (commit hashes, timestamps, basenames). -/
def slashFree (s : String) : Prop :=
  ∀ c ∈ s.data, c ≠ '/'

theorem takeWhile_append_of_all {p : Char → Bool} {x : List Char}
    (y : List Char) (h : ∀ c ∈ x, p c = true) :
    List.takeWhile p (x ++ y) = x ++ List.takeWhile p y := by
  induction x with
  | nil => simp
  | cons c cs ih =>
      have hc : p c = true := h c (by simp)
      simp only [List.cons_append, List.takeWhile_cons, hc, if_true]
      rw [ih fun d hd => h d (by simp [hd])]

theorem takeWhile_eq_self_of_all {p : Char → Bool} {x : List Char}
    (h : ∀ c ∈ x, p c = true) : List.takeWhile p x = x := by
  have := takeWhile_append_of_all (p := p) (x := x) [] h
  simpa using this

theorem takeWhile_append_of_stop {p : Char → Bool} {x : List Char}
    (y : List Char) (h : ∃ c ∈ x, p c = false) :
    List.takeWhile p (x ++ y) = List.takeWhile p x := by
  induction x with
  | nil =>
      obtain ⟨c, hc, _⟩ := h
      simp at hc
  | cons c cs ih =>
      by_cases hc : p c = true
      · simp only [List.cons_append, List.takeWhile_cons, hc, if_true]
        have : ∃ d ∈ cs, p d = false := by
          obtain ⟨d, hd, hdp⟩ := h
          rcases List.mem_cons.mp hd with h1 | h1
          · exact absurd hc (by rw [h1] at hdp; simp [hdp])
          · exact ⟨d, h1, hdp⟩
        rw [ih this]
      · have hc' : p c = false := by
          cases hpc : p c
          · rfl
          · exact absurd hpc hc
        simp [List.takeWhile_cons, hc']

theorem mem_of_takeWhile {p : Char → Bool} {x : List Char} {c : Char}
    (h : c ∈ List.takeWhile p x) : p c = true := by
  induction x with
  | nil => simp [List.takeWhile] at h
  | cons d ds ih =>
      by_cases hd : p d = true
      · simp only [List.takeWhile_cons, hd, if_true, List.mem_cons] at h
        rcases h with h | h
        · rwa [h]
        · exact ih h
      · have hd' : p d = false := by
          cases hpd : p d
          · rfl
          · exact absurd hpd hd
        simp [List.takeWhile_cons, hd'] at h

theorem basenameL_no_slash (l : List Char) : ∀ c ∈ basenameL l, c ≠ '/' := by
  intro c hc
  have : c ∈ List.takeWhile (fun c => c != '/') l.reverse := by
    simpa [basenameL, List.mem_reverse] using hc
  have := mem_of_takeWhile this
  simpa using this

theorem basenameL_append_no_slash (x y : List Char)
    (h : ∀ c ∈ y, c ≠ '/') : basenameL (x ++ y) = basenameL x ++ y := by
  unfold basenameL
  rw [List.reverse_append,
    takeWhile_append_of_all x.reverse
      (fun c hc => by simpa using h c (List.mem_reverse.mp hc))]
  simp

theorem basenameL_append_with_slash (x y : List Char)
    (h : '/' ∈ y) : basenameL (x ++ y) = basenameL y := by
  unfold basenameL
  rw [List.reverse_append,
    takeWhile_append_of_stop x.reverse
      ⟨'/', List.mem_reverse.mpr h, by simp⟩]

theorem basenameL_eq_self (y : List Char) (h : ∀ c ∈ y, c ≠ '/') :
    basenameL y = y := by
  unfold basenameL
  rw [takeWhile_eq_self_of_all
    (fun c hc => by simpa using h c (List.mem_reverse.mp hc))]
  simp

theorem basenameL_of_getLast_slash (a : List Char)
    (h : a.getLast? = some '/') : basenameL a = [] := by
  unfold basenameL
  have hrev : a.reverse.head? = some '/' := by
    rw [List.head?_reverse]
    exact h
  match hm : a.reverse with
  | [] => simp [hm] at hrev
  | c :: cs =>
      rw [hm] at hrev
      simp only [List.head?_cons, Option.some.injEq] at hrev
      subst hrev
      simp [List.takeWhile_cons]

/-- basename(join(a, b)) = b whenever b holds no slash: every join branch
either returns b itself or glues it after a slash-terminated head. -/
theorem pyBasename_pyJoin (a b : String) (h : ∀ c ∈ b.data, c ≠ '/') :
    pyBasename (pyJoin a b) = b := by
  unfold pyJoin
  by_cases h1 : b.data.head? = some '/'
  · exfalso
    match hm : b.data with
    | [] => rw [hm] at h1; simp at h1
    | c :: cs =>
        rw [hm] at h1
        simp only [List.head?_cons, Option.some.injEq] at h1
        exact h c (by rw [hm]; simp [h1]) h1
  · by_cases h2 : a = "" ∨ a.data.getLast? = some '/'
    · simp only [h1, if_false, h2, if_true]
      unfold pyBasename
      rw [String.data_append, basenameL_append_no_slash _ _ h]
      rcases h2 with h2 | h2
      · subst h2
        simp [basenameL]
      · rw [basenameL_of_getLast_slash _ h2]
        simp
    · simp only [h1, if_false, h2, if_false]
      unfold pyBasename
      rw [String.data_append, basenameL_append_no_slash _ _ h,
        String.data_append, basenameL_append_with_slash _ _ (by
          simp [show ("/" : String).data = ['/'] from rfl])]
      simp [show ("/" : String).data = ['/'] from rfl, basenameL,
        List.takeWhile_cons]

theorem mem_of_getLast_slash {l : List Char} (h : l.getLast? = some '/') :
    '/' ∈ l := by
  obtain ⟨hne, heq⟩ := List.mem_getLast?_eq_getLast (Option.mem_def.mpr h)
  rw [heq]
  exact List.getLast_mem hne

/-- The join of a non-empty head with anything contains a slash. -/
theorem slash_mem_pyJoin (a b : String) (ha : a ≠ "") :
    '/' ∈ (pyJoin a b).data := by
  unfold pyJoin
  by_cases h1 : b.data.head? = some '/'
  · simp only [h1, if_true]
    match hm : b.data with
    | [] => rw [hm] at h1; simp at h1
    | c :: cs =>
        rw [hm] at h1
        simp only [List.head?_cons, Option.some.injEq] at h1
        rw [h1]
        simp
  · by_cases h2 : a = "" ∨ a.data.getLast? = some '/'
    · rcases h2 with h2 | h2
      · exact absurd h2 ha
      · simp only [h1, if_false, if_pos (Or.inr h2), String.data_append]
        have : '/' ∈ a.data := mem_of_getLast_slash h2
        exact List.mem_append_left _ this
    · simp only [h1, if_false, h2, if_false, String.data_append]
      refine List.mem_append_left _ ?_
      refine List.mem_append_right _ ?_
      simp [show ("/" : String).data = ['/'] from rfl]

/-- Replacing the ".csv" suffix of a dot-free stem rewrites exactly the
suffix. -/
theorem csvReplace_stem (rep : List Char) (stem : List Char)
    (h : ∀ c ∈ stem, c ≠ '.') :
    csvReplace rep (stem ++ ['.', 'c', 's', 'v']) = stem ++ rep := by
  induction stem with
  | nil => simp [csvReplace]
  | cons c cs ih =>
      have hc : c ≠ '.' := h c (by simp)
      rw [List.cons_append, csvReplace]
      simp only [hc, false_and, if_false]
      rw [ih fun d hd => h d (by simp [hd])]
      simp

end PyPath

namespace SktTree

/-!
Embedding of ktree.merge_git_ref from skt/__init__.py.

The git subprocesses behind the call are abstracted into an oracle
`GitEnv`: whether the fetch of the requested ref succeeds, whether the
`git merge --no-edit` call succeeds, and which commit hash
`get_commit(dstref)` reports.  The remote-name derivation (getrname and
its collision-bumping loop) only feeds the fetch and is abstracted into
the oracle as well.
-/

/-- One row of the in-memory provenance list `self.info`. -/
inductive InfoItem where
  | base (uri head : String)
  | git (uri head : String)
  | patch (path : String)
  | patchwork (uri name : String)
deriving DecidableEq, Repr

/-- Oracle for the git subprocesses issued by merge_git_ref. -/
structure GitEnv where
  /-- The `git fetch -n rname +ref:dstref` call succeeds (check_call does
  not raise). -/
  fetchOk : Bool
  /-- The `git merge --no-edit dstref` call succeeds. -/
  mergeOk : Bool
  /-- Output of `get_commit(dstref)`. -/
  dstrefCommit : String
deriving Repr

/-- The ktree state merge_git_ref can observe or change: the provenance
list and a count of `git reset --hard` invocations. -/
structure KtreeState where
  info : List InfoItem
  hardResets : Nat
deriving DecidableEq, Repr

/-- Embedding of ktree.merge_git_ref.  Mirrors the source line by line:
the remote-add failure is swallowed; a fetch failure raises out of the
function (modelled as `Except.error`); a merge failure hard-resets the
tree and returns `(1, None)`; a merge success reads
`get_commit(dstref)`, appends a ("git", uri, head) provenance row and
returns `(0, head)`. -/
def merge_git_ref (env : GitEnv) (st : KtreeState) (uri : String)
    (ref : String := "master") :
    Except Unit ((Nat × Option String) × KtreeState) :=
  if env.fetchOk = false then
    Except.error ()
  else if env.mergeOk then
    let head := env.dstrefCommit
    Except.ok ((0, some head),
      { st with info := st.info ++ [InfoItem.git uri head] })
  else
    Except.ok ((1, none), { st with hardResets := st.hardResets + 1 })

end SktTree

/-- C8: ktree.merge_git_ref with a successful fetch returns (1, None)
after a hard reset and leaves the provenance list untouched when the
merge fails; when the merge succeeds it appends ("git", uri, head) to
the provenance list and returns (0, head) with head the commit of the
fetched ref. -/
theorem C8_merge_git_ref_contract (env : SktTree.GitEnv)
    (st : SktTree.KtreeState) (uri ref : String)
    (hfetch : env.fetchOk = true) :
    (env.mergeOk = false →
      SktTree.merge_git_ref env st uri ref =
        Except.ok ((1, none),
          { st with hardResets := st.hardResets + 1 })) ∧
    (env.mergeOk = true →
      SktTree.merge_git_ref env st uri ref =
        Except.ok ((0, some env.dstrefCommit),
          { st with info :=
              st.info ++ [SktTree.InfoItem.git uri env.dstrefCommit] })) := by
  constructor
  · intro hm
    simp [SktTree.merge_git_ref, hfetch, hm]
  · intro hm
    simp [SktTree.merge_git_ref, hfetch, hm]

/-- Witness for C8 at a concrete oracle: a failing merge on a tree with
one provenance row, and a succeeding merge on the same tree. -/
theorem C8_merge_git_ref_contract_witness :
    (SktTree.merge_git_ref
        { fetchOk := true, mergeOk := false, dstrefCommit := "abc" }
        { info := [SktTree.InfoItem.base "u" "h0"], hardResets := 0 }
        "https://example.org/r.git" "master" =
      Except.ok ((1, none),
        { info := [SktTree.InfoItem.base "u" "h0"], hardResets := 1 })) := by
  exact (C8_merge_git_ref_contract
    { fetchOk := true, mergeOk := false, dstrefCommit := "abc" }
    { info := [SktTree.InfoItem.base "u" "h0"], hardResets := 0 }
    "https://example.org/r.git" "master" rfl).1 rfl

namespace KernelBuilder

/-!
Embedding of KernelBuilder.mktgz and KernelBuilder.find_tarball from
skt/kernelbuilder.py.

The supervised build subprocess is abstracted into an oracle: its exit
status and the lines it left in the build log.  The filesystem is
abstracted into an isfile predicate and a realpath resolution function.
-/

/-- Modelled from the spec: skt.misc.join_with_slash, imported by
kernelbuilder.py but whose module is not among the sources; per its name
and every use site it joins path components with a slash. -/
def join_with_slash (a b : String) : String :=
  a ++ "/" ++ b

/-- The fixed text of the tarball line the build log is scanned for.
The compiled pattern is "^Tarball successfully created in (.*)$": with
re.search and no MULTILINE flag the caret pins the match to the start of
the line, and the group captures the remainder of the line. -/
def tarballLineHead : String :=
  "Tarball successfully created in "

/-- Oracle for the build subprocess and the filesystem seen by mktgz. -/
structure BuildEnv where
  /-- The directory the builder was constructed over (self.source_dir). -/
  source_dir : String
  /-- Exit status of the timeout-supervised make subprocess. -/
  returncode : Int
  /-- Lines of the build log, without their trailing newline. -/
  loglines : List String
  /-- os.path.realpath as a pure resolution function. -/
  realpath : String → String
  /-- os.path.isfile. -/
  isfile : String → Bool

/-- The distinct error kinds mktgz documents and raises. -/
inductive KbError where
  | commandTimeoutError
  | calledProcessError (code : Int)
  | parsingError
  | ioError (path : String)
deriving DecidableEq, Repr

/-- Embedding of KernelBuilder.find_tarball: scan the build log line by
line for the tarball pattern; on the first hit resolve
realpath(join_with_slash(source_dir, group(1))); otherwise None. -/
def find_tarball (env : BuildEnv) : Option String :=
  (env.loglines.find? (fun l => strStartsWith l tarballLineHead)).map
    (fun l => env.realpath
      (join_with_slash env.source_dir (strDrop l tarballLineHead.length)))

/-- The make argv assembled by mktgz before the timeout prefix, abstracted
to its shape: assemble_make_options() = make_argv_base ++ targz_pkg_argv
++ extra_make_args.  Only the timeout prefix matters to the claims, so
the tail is kept as an opaque parameter of the run. -/
structure MkOut where
  /-- The argv of the supervised subprocess, with its timeout prefix. -/
  argv : List String
  /-- Normal return (the tarball path) or the raised error. -/
  result : Except KbError String

/-- The outcome branch of KernelBuilder.mktgz once the supervised
subprocess has exited.  Exit status 124 (the exit code of the timeout
command on expiry) raises CommandTimeoutError; any other non-zero
status raises CalledProcessError; on a zero status the build log is
scanned for the tarball line, a missing or falsy match raises
ParsingError, a match naming a non-existing file raises IOError, and
otherwise the resolved absolute path is returned. -/
def mktgzResult (env : BuildEnv) : Except KbError String :=
  if env.returncode = 124 then
    Except.error KbError.commandTimeoutError
  else if env.returncode ≠ 0 then
    Except.error (KbError.calledProcessError env.returncode)
  else
    match find_tarball env with
    | none => Except.error KbError.parsingError
    | some fpath =>
        if fpath = "" then
          Except.error KbError.parsingError
        else if env.isfile fpath = false then
          Except.error (KbError.ioError fpath)
        else
          Except.ok fpath

/-- Embedding of KernelBuilder.mktgz.  The default timeout is the
source value 60 * 60 * 12 seconds, prepended to the make argv as
["timeout", str(timeout)]. -/
def mktgz (env : BuildEnv) (makeArgs : List String)
    (timeout : Nat := 60 * 60 * 12) : MkOut :=
  { argv := ["timeout", toString timeout] ++ makeArgs,
    result := mktgzResult env }

end KernelBuilder

/-- C9: KernelBuilder.mktgz defaults its timeout to 43200 seconds (12
hours) in the supervising timeout command; exit status 124 raises
CommandTimeoutError; any other non-zero exit raises CalledProcessError;
on a zero exit, if no build-log line matches the tarball pattern it
raises ParsingError, if the matched path does not exist on disk it
raises IOError, and otherwise the resolved absolute path is returned. -/
theorem C9_mktgz_error_contract (env : KernelBuilder.BuildEnv)
    (makeArgs : List String) :
    ((KernelBuilder.mktgz env makeArgs).argv.take 2 = ["timeout", "43200"]) ∧
    (env.returncode = 124 →
      (KernelBuilder.mktgz env makeArgs).result =
        Except.error KernelBuilder.KbError.commandTimeoutError) ∧
    (env.returncode ≠ 124 → env.returncode ≠ 0 →
      (KernelBuilder.mktgz env makeArgs).result =
        Except.error (KernelBuilder.KbError.calledProcessError
          env.returncode)) ∧
    (env.returncode = 0 →
      (∀ l ∈ env.loglines,
          strStartsWith l KernelBuilder.tarballLineHead = false) →
      (KernelBuilder.mktgz env makeArgs).result =
        Except.error KernelBuilder.KbError.parsingError) ∧
    (∀ fpath, env.returncode = 0 →
      KernelBuilder.find_tarball env = some fpath → fpath ≠ "" →
      env.isfile fpath = false →
      (KernelBuilder.mktgz env makeArgs).result =
        Except.error (KernelBuilder.KbError.ioError fpath)) ∧
    (∀ fpath, env.returncode = 0 →
      KernelBuilder.find_tarball env = some fpath → fpath ≠ "" →
      env.isfile fpath = true →
      (KernelBuilder.mktgz env makeArgs).result = Except.ok fpath) := by
  refine ⟨rfl, ?_, ?_, ?_, ?_, ?_⟩
  · intro h
    simp [KernelBuilder.mktgz, KernelBuilder.mktgzResult, h]
  · intro h124 h0
    simp [KernelBuilder.mktgz, KernelBuilder.mktgzResult, h124, h0]
  · intro h0 hnone
    have hfindN : (env.loglines.find?
        (fun l => strStartsWith l KernelBuilder.tarballLineHead)) = none := by
      rw [List.find?_eq_none]
      intro l hl
      simp [hnone l hl]
    have hfind : KernelBuilder.find_tarball env = none := by
      rw [KernelBuilder.find_tarball, hfindN]
      rfl
    have h124 : env.returncode ≠ 124 := by omega
    simp [KernelBuilder.mktgz, KernelBuilder.mktgzResult, h0, h124, hfind]
  · intro fpath h0 hfind hne hfile
    have h124 : env.returncode ≠ 124 := by omega
    simp [KernelBuilder.mktgz, KernelBuilder.mktgzResult, h0, h124, hfind,
      hne, hfile]
  · intro fpath h0 hfind hne hfile
    have h124 : env.returncode ≠ 124 := by omega
    simp [KernelBuilder.mktgz, KernelBuilder.mktgzResult, h0, h124, hfind,
      hne, hfile]

set_option maxRecDepth 8192 in
/-- Witness for C9 at a concrete oracle: a successful build whose log
names an existing tarball, exercised through every hypothesis of the
contract theorem. -/
theorem C9_mktgz_error_contract_witness :
    (KernelBuilder.mktgz
      { source_dir := "/src", returncode := 0,
        loglines := ["CC kernel/fork.o",
                     "Tarball successfully created in ./linux-4.17.tar.gz"],
        realpath := fun s => s,
        isfile := fun s => s = "/src/./linux-4.17.tar.gz" }
      ["make", "-C", "/src"]).result =
      Except.ok "/src/./linux-4.17.tar.gz" := by
  exact (C9_mktgz_error_contract
    { source_dir := "/src", returncode := 0,
      loglines := ["CC kernel/fork.o",
                   "Tarball successfully created in ./linux-4.17.tar.gz"],
      realpath := fun s => s,
      isfile := fun s => s = "/src/./linux-4.17.tar.gz" }
    ["make", "-C", "/src"]).2.2.2.2.2 "/src/./linux-4.17.tar.gz"
    rfl (by decide) (by decide) (by decide)

namespace SktPy

/-!
Embedding of the per-architecture loop body of cmd_build from skt.py.

The builder object is abstracted into an oracle `BuildArchEnv` (the
outcome of builder.mktgz, the buildlog path of the builder, config path and
getrelease outcome); the filesystem calls os.rename / shutil.copyfile
and the save_state writes are recorded as an ordered effect trace.
-/

/-- skt.py addtstamp: join the directory of the path with
"{tstamp}-{basename}". -/
def addtstamp (path tstamp : String) : String :=
  PyPath.pyJoin (PyPath.pyDirname path) (tstamp ++ "-" ++ PyPath.pyBasename path)

/-- One observable side effect of the build stage body. -/
inductive BuildEffect where
  | rename (src dst : String)
  | copyfile (src dst : String)
  | saveState (kvs : List (String × Option String))
deriving DecidableEq, Repr

/-- The configuration keys the build stage body reads and writes. -/
structure BuildCfg where
  buildhead : Option String
  buildinfo : Option String
deriving DecidableEq, Repr

/-- Oracle for the builder object of one architecture. -/
structure BuildArchEnv where
  /-- Outcome of builder.mktgz(cfg.get("wipe")): a tarball path or a
  raised build exception. -/
  mktgzOutcome : Except Unit String
  /-- builder.buildlog, saved into buildlog_{arch} when mktgz raises. -/
  buildlogPath : String
  /-- builder.get_cfgpath(). -/
  cfgpath : String
  /-- Outcome of builder.getrelease(). -/
  getreleaseOutcome : Except Unit String

/-- The Python exceptions the build stage body can raise. -/
inductive BuildError where
  /-- NoneType has no attribute "replace": tconfig is computed from a
  still-None tbuildinfo. -/
  | attributeError
  /-- The exception re-raised after builder.mktgz fails. -/
  | buildFailed
  /-- The exception raised by builder.getrelease. -/
  | releaseFailed
deriving DecidableEq, Repr

/-- Result of one iteration of the cmd_build per-architecture loop. -/
structure BuildArchOut where
  result : Except BuildError Unit
  effects : List BuildEffect
  cfg : BuildCfg
deriving Repr

/-- Embedding of one iteration of the `for (arch, opts) in
cfg.get("arches")` loop of cmd_build, for architecture `arch`, with the
timestamp string computed at stage entry passed in as `tstamp`.  The
line `cfg["buildinfo"] == None` of the source is a comparison, not an
assignment, so no configuration change is modelled at that point. -/
def cmd_build_arch (env : BuildArchEnv) (tstamp arch : String)
    (cfg : BuildCfg) : BuildArchOut :=
  match env.mktgzOutcome with
  | Except.error _ =>
      { result := Except.error BuildError.buildFailed,
        effects := [BuildEffect.saveState
          [("buildlog_" ++ arch, some env.buildlogPath)]],
        cfg := cfg }
  | Except.ok tgz =>
      let ttgz := match cfg.buildhead with
        | some bh => bh ++ "_" ++ arch ++ ".tar.gz"
        | none => arch ++ "_" ++ addtstamp tgz tstamp
      let eff1 := [BuildEffect.rename tgz ttgz]
      match cfg.buildinfo with
      | none =>
          { result := Except.error BuildError.attributeError,
            effects := eff1, cfg := cfg }
      | some bi =>
          let tbuildinfo := match cfg.buildhead with
            | some bh => bh ++ ".csv"
            | none => addtstamp bi tstamp
          let eff2 := eff1 ++ [BuildEffect.rename bi tbuildinfo]
          let tconfig := PyPath.pyReplaceCsv tbuildinfo
            ("_" ++ arch ++ ".config")
          let eff3 := eff2 ++ [BuildEffect.copyfile env.cfgpath tconfig]
          match env.getreleaseOutcome with
          | Except.error _ =>
              { result := Except.error BuildError.releaseFailed,
                effects := eff3, cfg := cfg }
          | Except.ok krelease =>
              let eff4 := if tbuildinfo ≠ "" then
                  eff3 ++ [BuildEffect.saveState
                    [("buildinfo", some tbuildinfo)]]
                else eff3
              let cfg4 := if tbuildinfo ≠ "" then
                  { cfg with buildinfo := some tbuildinfo }
                else cfg
              { result := Except.ok (),
                effects := eff4 ++ [BuildEffect.saveState
                  [("tarpkg_" ++ arch, some ttgz),
                   ("buildconf_" ++ arch, some tconfig),
                   ("krelease", some krelease)]],
                cfg := cfg4 }

end SktPy

theorem str_append_ne_empty_right (x y : String) (hy : y ≠ "") :
    x ++ y ≠ "" := by
  intro h
  have hd := congrArg String.data h
  rw [String.data_append] at hd
  have h2 := (List.append_eq_nil.mp hd).2
  exact hy (String.ext h2)

theorem str_append_ne_empty_left (x y : String) (hx : x ≠ "") :
    x ++ y ≠ "" := by
  intro h
  have hd := congrArg String.data h
  rw [String.data_append] at hd
  have h2 := (List.append_eq_nil.mp hd).1
  exact hx (String.ext h2)

theorem pyJoin_ne_empty (a b : String) (hb : b ≠ "") :
    PyPath.pyJoin a b ≠ "" := by
  unfold PyPath.pyJoin
  by_cases h1 : b.data.head? = some '/'
  · simpa [h1] using hb
  · by_cases h2 : a = "" ∨ a.data.getLast? = some '/'
    · simpa [h1, h2] using str_append_ne_empty_right a b hb
    · simpa [h1, h2] using
        str_append_ne_empty_right (a ++ "/") b hb

theorem addtstamp_ne_empty (x t : String) : SktPy.addtstamp x t ≠ "" := by
  unfold SktPy.addtstamp
  exact pyJoin_ne_empty _ _
    (str_append_ne_empty_left _ _
      (str_append_ne_empty_right t "-" (by decide)))

theorem csv_name_ne_empty (bh : String) : bh ++ ".csv" ≠ "" :=
  str_append_ne_empty_right bh ".csv" (by decide)

theorem pyReplaceCsv_csv_suffix (bh rep : String)
    (h : ∀ c ∈ bh.data, c ≠ '.') :
    PyPath.pyReplaceCsv (bh ++ ".csv") rep = bh ++ rep := by
  apply String.ext
  have hd : (bh ++ ".csv").data = bh.data ++ ['.', 'c', 's', 'v'] := by
    rw [String.data_append]
  show PyPath.csvReplace rep.data (bh ++ ".csv").data = (bh ++ rep).data
  rw [hd, PyPath.csvReplace_stem _ _ h, String.data_append]

theorem tstamped_slashFree (tstamp x : String) (ht : PyPath.slashFree tstamp) :
    ∀ c ∈ (tstamp ++ "-" ++ PyPath.pyBasename x).data, c ≠ '/' := by
  intro c hc
  rw [String.data_append, String.data_append] at hc
  rcases List.mem_append.mp hc with hc | hc
  · rcases List.mem_append.mp hc with hc | hc
    · exact ht c hc
    · have : c = '-' := by simpa using hc
      subst this
      decide
  · exact PyPath.basenameL_no_slash x.data c hc

/-- basename(addtstamp(x, t)) = "{t}-{basename(x)}" for a slash-free
timestamp: the timestamp is prefixed to the filename component. -/
theorem pyBasename_addtstamp (x tstamp : String)
    (ht : PyPath.slashFree tstamp) :
    PyPath.pyBasename (SktPy.addtstamp x tstamp) =
      tstamp ++ "-" ++ PyPath.pyBasename x := by
  unfold SktPy.addtstamp
  exact PyPath.pyBasename_pyJoin _ _ (tstamped_slashFree tstamp x ht)

/-- basename("{arch}_" ++ addtstamp(x, t)) for a path with a non-empty
directory part: the glued arch prefix lands before the last slash, so
the filename component still starts with the timestamp. -/
theorem pyBasename_arch_addtstamp (arch x tstamp : String)
    (ht : PyPath.slashFree tstamp) (hd : PyPath.pyDirname x ≠ "") :
    PyPath.pyBasename (arch ++ "_" ++ SktPy.addtstamp x tstamp) =
      tstamp ++ "-" ++ PyPath.pyBasename x := by
  have hassoc : arch ++ "_" ++ SktPy.addtstamp x tstamp =
      (arch ++ "_") ++ SktPy.addtstamp x tstamp := by
    apply String.ext
    simp [String.data_append]
  rw [hassoc]
  have hslash : '/' ∈ (SktPy.addtstamp x tstamp).data :=
    PyPath.slash_mem_pyJoin _ _ hd
  have hstep : PyPath.pyBasename ((arch ++ "_") ++ SktPy.addtstamp x tstamp) =
      PyPath.pyBasename (SktPy.addtstamp x tstamp) := by
    unfold PyPath.pyBasename
    rw [String.data_append, PyPath.basenameL_append_with_slash _ _ hslash]
  rw [hstep, pyBasename_addtstamp x tstamp ht]

/-- C7: in the BUILD stage body for a built architecture, with a known
buildhead the tarball is renamed to "{buildhead}_{arch}.tar.gz", the
provenance CSV is renamed to "{buildhead}.csv" and the active config is
copied to "{buildhead}_{arch}.config"; with an unknown buildhead the
artifact names instead carry the "YYYYMMDDhhmmss-" timestamp prefix on
their filename component ("{arch}_" ++ addtstamp for the tarball,
addtstamp for the CSV, with the config name derived from the CSV). -/
theorem C7_build_artifact_names (env : SktPy.BuildArchEnv)
    (tstamp arch : String) (cfg : SktPy.BuildCfg) (bi tgz kr : String)
    (hmt : env.mktgzOutcome = Except.ok tgz)
    (hbi : cfg.buildinfo = some bi)
    (hkr : env.getreleaseOutcome = Except.ok kr) :
    (∀ bh, cfg.buildhead = some bh → (∀ c ∈ bh.data, c ≠ '.') →
      (SktPy.cmd_build_arch env tstamp arch cfg).effects =
        [SktPy.BuildEffect.rename tgz (bh ++ "_" ++ arch ++ ".tar.gz"),
         SktPy.BuildEffect.rename bi (bh ++ ".csv"),
         SktPy.BuildEffect.copyfile env.cfgpath
           (bh ++ "_" ++ arch ++ ".config"),
         SktPy.BuildEffect.saveState [("buildinfo", some (bh ++ ".csv"))],
         SktPy.BuildEffect.saveState
           [("tarpkg_" ++ arch, some (bh ++ "_" ++ arch ++ ".tar.gz")),
            ("buildconf_" ++ arch, some (bh ++ "_" ++ arch ++ ".config")),
            ("krelease", some kr)]]) ∧
    (cfg.buildhead = none → PyPath.slashFree tstamp →
      PyPath.pyDirname tgz ≠ "" →
      (SktPy.cmd_build_arch env tstamp arch cfg).effects =
        [SktPy.BuildEffect.rename tgz
           (arch ++ "_" ++ SktPy.addtstamp tgz tstamp),
         SktPy.BuildEffect.rename bi (SktPy.addtstamp bi tstamp),
         SktPy.BuildEffect.copyfile env.cfgpath
           (PyPath.pyReplaceCsv (SktPy.addtstamp bi tstamp)
             ("_" ++ arch ++ ".config")),
         SktPy.BuildEffect.saveState
           [("buildinfo", some (SktPy.addtstamp bi tstamp))],
         SktPy.BuildEffect.saveState
           [("tarpkg_" ++ arch,
             some (arch ++ "_" ++ SktPy.addtstamp tgz tstamp)),
            ("buildconf_" ++ arch,
             some (PyPath.pyReplaceCsv (SktPy.addtstamp bi tstamp)
               ("_" ++ arch ++ ".config"))),
            ("krelease", some kr)]] ∧
      PyPath.pyBasename (arch ++ "_" ++ SktPy.addtstamp tgz tstamp) =
        tstamp ++ "-" ++ PyPath.pyBasename tgz ∧
      PyPath.pyBasename (SktPy.addtstamp bi tstamp) =
        tstamp ++ "-" ++ PyPath.pyBasename bi) := by
  constructor
  · intro bh hbh hdot
    have hrep : PyPath.pyReplaceCsv (bh ++ ".csv")
        ("_" ++ arch ++ ".config") = bh ++ "_" ++ arch ++ ".config" := by
      rw [pyReplaceCsv_csv_suffix bh _ hdot]
      simp [String.append_assoc]
    simp [SktPy.cmd_build_arch, hmt, hbh, hbi, hkr, hrep,
      csv_name_ne_empty bh]
  · intro hbh ht hd
    refine ⟨?_, pyBasename_arch_addtstamp arch tgz tstamp ht hd,
      pyBasename_addtstamp bi tstamp ht⟩
    simp [SktPy.cmd_build_arch, hmt, hbh, hbi, hkr,
      addtstamp_ne_empty bi tstamp]

/-- Witness for C7 at a concrete input: buildhead known in one run and
unknown in a second run over the same builder oracle. -/
theorem C7_build_artifact_names_witness :
    (SktPy.cmd_build_arch
      { mktgzOutcome := Except.ok "/w/build_x86_64/linux.tar.gz",
        buildlogPath := "/w/build_x86_64/build.log",
        cfgpath := "/w/build_x86_64/.config",
        getreleaseOutcome := Except.ok "4.17.0-rc6" }
      "20180611121314" "x86_64"
      { buildhead := some "abc123",
        buildinfo := some "/w/buildinfo.csv" }).effects =
    [SktPy.BuildEffect.rename "/w/build_x86_64/linux.tar.gz"
       "abc123_x86_64.tar.gz",
     SktPy.BuildEffect.rename "/w/buildinfo.csv" "abc123.csv",
     SktPy.BuildEffect.copyfile "/w/build_x86_64/.config"
       "abc123_x86_64.config",
     SktPy.BuildEffect.saveState [("buildinfo", some "abc123.csv")],
     SktPy.BuildEffect.saveState
       [("tarpkg_x86_64", some "abc123_x86_64.tar.gz"),
        ("buildconf_x86_64", some "abc123_x86_64.config"),
        ("krelease", some "4.17.0-rc6")]] := by
  exact (C7_build_artifact_names
    { mktgzOutcome := Except.ok "/w/build_x86_64/linux.tar.gz",
      buildlogPath := "/w/build_x86_64/build.log",
      cfgpath := "/w/build_x86_64/.config",
      getreleaseOutcome := Except.ok "4.17.0-rc6" }
    "20180611121314" "x86_64"
    { buildhead := some "abc123", buildinfo := some "/w/buildinfo.csv" }
    "/w/buildinfo.csv" "/w/build_x86_64/linux.tar.gz" "4.17.0-rc6"
    rfl rfl rfl).1 "abc123" rfl (by decide)

/-- C10: when cfg buildinfo is None, the build stage body raises an
AttributeError after renaming the tarball and before copying the config
or persisting any per-arch state (the config name is computed from the
still-None provenance name); and because the source line
cfg["buildinfo"] == None is a comparison with no effect, a non-None
buildinfo value is never cleared from the in-memory configuration. -/
theorem C10_build_none_buildinfo_crash (env : SktPy.BuildArchEnv)
    (tstamp arch : String) (cfg : SktPy.BuildCfg) (tgz : String)
    (hbi : cfg.buildinfo = none)
    (hmt : env.mktgzOutcome = Except.ok tgz) :
    ((SktPy.cmd_build_arch env tstamp arch cfg).result =
        Except.error SktPy.BuildError.attributeError ∧
      (SktPy.cmd_build_arch env tstamp arch cfg).effects =
        [SktPy.BuildEffect.rename tgz
          (match cfg.buildhead with
            | some bh => bh ++ "_" ++ arch ++ ".tar.gz"
            | none => arch ++ "_" ++ SktPy.addtstamp tgz tstamp)]) ∧
    (∀ cfg' : SktPy.BuildCfg, ∀ bi kr : String,
      cfg'.buildinfo = some bi →
      env.getreleaseOutcome = Except.ok kr →
      (SktPy.cmd_build_arch env tstamp arch cfg').cfg.buildinfo ≠ none) := by
  constructor
  · constructor
    · simp [SktPy.cmd_build_arch, hmt, hbi]
    · simp [SktPy.cmd_build_arch, hmt, hbi]
  · intro cfg' bi kr hbi' hkr
    cases hbh : cfg'.buildhead with
    | some bh =>
        simp [SktPy.cmd_build_arch, hmt, hbi', hkr, hbh,
          csv_name_ne_empty bh]
    | none =>
        simp [SktPy.cmd_build_arch, hmt, hbi', hkr, hbh,
          addtstamp_ne_empty bi tstamp]

/-- Witness for C10 at a concrete input: a resumed build with a known
buildhead but no buildinfo raises AttributeError with exactly the
tarball rename performed. -/
theorem C10_build_none_buildinfo_crash_witness :
    ((SktPy.cmd_build_arch
        { mktgzOutcome := Except.ok "/w/build_x86_64/linux.tar.gz",
          buildlogPath := "/w/build_x86_64/build.log",
          cfgpath := "/w/build_x86_64/.config",
          getreleaseOutcome := Except.ok "4.17.0-rc6" }
        "20180611121314" "x86_64"
        { buildhead := some "abc123", buildinfo := none }).result =
      Except.error SktPy.BuildError.attributeError) ∧
    ((SktPy.cmd_build_arch
        { mktgzOutcome := Except.ok "/w/build_x86_64/linux.tar.gz",
          buildlogPath := "/w/build_x86_64/build.log",
          cfgpath := "/w/build_x86_64/.config",
          getreleaseOutcome := Except.ok "4.17.0-rc6" }
        "20180611121314" "x86_64"
        { buildhead := some "abc123", buildinfo := none }).effects =
      [SktPy.BuildEffect.rename "/w/build_x86_64/linux.tar.gz"
        "abc123_x86_64.tar.gz"]) := by
  exact (C10_build_none_buildinfo_crash
    { mktgzOutcome := Except.ok "/w/build_x86_64/linux.tar.gz",
      buildlogPath := "/w/build_x86_64/build.log",
      cfgpath := "/w/build_x86_64/.config",
      getreleaseOutcome := Except.ok "4.17.0-rc6" }
    "20180611121314" "x86_64"
    { buildhead := some "abc123", buildinfo := none }
    "/w/build_x86_64/linux.tar.gz" rfl rfl).1

namespace SktPy

/-!
Embedding of cmd_merge from skt.py.

The ktree object is abstracted into an oracle `MergeEnv`: the commit
returned by checkout(), the commit date, the outcome of each
merge_git_ref / merge_patch_file / merge_patchwork_patch call, and the
commit HEAD moves to after each successful source application.  The
Python local variable `head` of cmd_merge is modelled as
Option (Option String): the outer none is "not yet assigned", and
reading it in that state raises UnboundLocalError, exactly as the
source does on the first loop iteration, where the save_state argument
dictionary mentions `head` before the merge_git_ref call assigns it.
-/

/-- Oracle for the ktree object driven by cmd_merge. -/
structure MergeEnv where
  /-- Commit hash returned by ktree.checkout(). -/
  checkoutHead : String
  /-- ktree.get_commit_date(bhead). -/
  commitdate : Int
  /-- tempfile.mkdtemp(), used when no workdir is configured. -/
  tmpdir : String
  /-- Outcome (retcode, head) of the i-th ktree.merge_git_ref call. -/
  mergeGit : Nat → Nat × Option String
  /-- HEAD commit after the i-th successful git merge. -/
  gitHeadAfter : Nat → String
  /-- Whether the i-th ktree.merge_patch_file call succeeds. -/
  patchOk : Nat → Bool
  /-- HEAD commit after the i-th successful local patch. -/
  patchHeadAfter : Nat → String
  /-- Whether the i-th ktree.merge_patchwork_patch call succeeds. -/
  pwOk : Nat → Bool
  /-- HEAD commit after the i-th successful patchwork patch. -/
  pwHeadAfter : Nat → String

/-- The configuration fields cmd_merge reads. -/
structure MergeCfg where
  baserepo : Option String
  /-- Each -m entry: target URL plus optional ref. -/
  merge_ref : List (String × Option String)
  patchlist : Option (List String)
  pw : Option (List String)
  workdir : Option String

/-- The exceptions cmd_merge can raise (all are caught by the
`except Exception` clause, which persists mergelog and re-raises). -/
inductive MergeError where
  /-- The local variable head is read before its first assignment. -/
  | unboundLocalError
  | patchFailed (path : String)
  | patchworkFailed (uri : String)
deriving DecidableEq, Repr

/-- Result of one cmd_merge call: the outcome, the ordered log of
save_state writes, and the value of the process-global retcode. -/
structure MergeOut where
  result : Except MergeError Unit
  saved : List (String × Option String)
  retcode : Nat
deriving Repr

/-- Result of the `for mb in cfg.get("merge_ref")` loop. -/
inductive GitLoopRes where
  /-- An exception escaped the loop body. -/
  | raised (saved : List (String × Option String)) (rc : Nat)
  /-- The `return` statement ran: cmd_merge exits successfully without
  writing uid, buildhead, workdir or buildinfo. -/
  | earlyReturn (saved : List (String × Option String)) (rc : Nat)
      (gits : Nat) (cur : String)
  /-- The loop consumed the whole list. -/
  | fellThrough (saved : List (String × Option String)) (rc : Nat)
      (gits : Nat) (cur : String)

/-- The merge_ref loop of cmd_merge.  On each iteration, the save_state
argument dictionary {"meregerepo_%02d": mb[0], "mergehead_%02d": head}
is evaluated BEFORE merge_git_ref runs; on the first iteration `head`
is still unbound, so the evaluation raises UnboundLocalError (note also
the "meregerepo" misspelling, taken verbatim from the source). -/
def mergeGitLoop (env : MergeEnv) (idx : Nat) (head : Option (Option String))
    (rc : Nat) (gits : Nat) (cur : String) :
    List (String × Option String) → GitLoopRes
  | [] => GitLoopRes.fellThrough [] rc gits cur
  | mb :: rest =>
      match head with
      | none => GitLoopRes.raised [] rc
      | some h =>
          let entries := [("meregerepo_" ++ pad2 idx, some mb.1),
                          ("mergehead_" ++ pad2 idx, h)]
          let out := env.mergeGit idx
          if out.1 ≠ 0 then
            GitLoopRes.earlyReturn entries out.1 (gits + 1) cur
          else
            match mergeGitLoop env (idx + 1) (some out.2) out.1 (gits + 1)
                (env.gitHeadAfter idx) rest with
            | GitLoopRes.raised s r => GitLoopRes.raised (entries ++ s) r
            | GitLoopRes.earlyReturn s r g c =>
                GitLoopRes.earlyReturn (entries ++ s) r g c
            | GitLoopRes.fellThrough s r g c =>
                GitLoopRes.fellThrough (entries ++ s) r g c

/-- The local-patch and patchwork loops of cmd_merge: persist the
indexed key before applying; on an application failure the raised
exception aborts the loop.  Returns (outcome, writes, final HEAD). -/
def patchLoop (key : String) (ok : Nat → Bool) (headAfter : Nat → String)
    (idx : Nat) (cur : String) :
    List String → Except String Unit × List (String × Option String) × String
  | [] => (Except.ok (), [], cur)
  | p :: rest =>
      let e := (key ++ pad2 idx, some p)
      if ok idx then
        match patchLoop key ok headAfter (idx + 1) (headAfter idx) rest with
        | (r, s, c) => (r, e :: s, c)
      else
        (Except.error p, [e], cur)

/-- The first three save_state writes of cmd_merge. -/
def savedInit (env : MergeEnv) (cfg : MergeCfg) :
    List (String × Option String) :=
  [("baserepo", cfg.baserepo),
   ("basehead", some env.checkoutHead),
   ("commitdate", some (toString env.commitdate))]

/-- The utypes list cmd_merge accumulates: one "[git]" per merge_ref
loop iteration completed, then "[local patch]" if a patchlist is
configured, then "[patchwork]" if patchwork URLs are configured. -/
def mergeUtypes (gits : Nat) (cfg : MergeCfg) : List String :=
  List.replicate gits "[git]" ++
    (if cfg.patchlist.isSome then ["[local patch]"] else []) ++
    (if cfg.pw.isSome then ["[patchwork]"] else [])

/-- uid as computed at the end of cmd_merge. -/
def mergeUid (gits : Nat) (cfg : MergeCfg) : String :=
  let utypes := mergeUtypes gits cfg
  if utypes.isEmpty then "[baseline]" else String.intercalate " " utypes

/-- The final save_state write of cmd_merge. -/
def finalSaves (wdir cur2 uid : String) : List (String × Option String) :=
  [("workdir", some wdir),
   ("buildinfo", some (wdir ++ "/buildinfo.csv")),
   ("buildhead", some cur2),
   ("uid", some uid)]

/-- Embedding of cmd_merge.  `retc0` is the value of the process-global
retcode at entry (0 for a fresh process). -/
def cmd_merge (env : MergeEnv) (retc0 : Nat) (cfg : MergeCfg) : MergeOut :=
  let wdir := cfg.workdir.getD env.tmpdir
  let mergelog := wdir ++ "/merge.log"
  match mergeGitLoop env 0 none retc0 0 env.checkoutHead cfg.merge_ref with
  | GitLoopRes.raised s rc =>
      { result := Except.error MergeError.unboundLocalError,
        saved := savedInit env cfg ++ s ++ [("mergelog", some mergelog)],
        retcode := rc }
  | GitLoopRes.earlyReturn s rc _ _ =>
      { result := Except.ok (),
        saved := savedInit env cfg ++ s,
        retcode := rc }
  | GitLoopRes.fellThrough s rc gits cur =>
      match (match cfg.patchlist with
             | none =>
                 (Except.ok (), ([] : List (String × Option String)), cur)
             | some pl =>
                 patchLoop "localpatch_" env.patchOk env.patchHeadAfter
                   0 cur pl) with
      | (Except.error p, ps, _) =>
          { result := Except.error (MergeError.patchFailed p),
            saved := savedInit env cfg ++ s ++ ps ++
              [("mergelog", some mergelog)],
            retcode := rc }
      | (Except.ok _, ps, cur1) =>
          match (match cfg.pw with
                 | none =>
                     (Except.ok (), ([] : List (String × Option String)),
                      cur1)
                 | some wl =>
                     patchLoop "patchwork_" env.pwOk env.pwHeadAfter
                       0 cur1 wl) with
          | (Except.error u, ws, _) =>
              { result := Except.error (MergeError.patchworkFailed u),
                saved := savedInit env cfg ++ s ++ ps ++ ws ++
                  [("mergelog", some mergelog)],
                retcode := rc }
          | (Except.ok _, ws, cur2) =>
              { result := Except.ok (),
                saved := savedInit env cfg ++ s ++ ps ++ ws ++
                  finalSaves wdir cur2 (mergeUid gits cfg),
                retcode := rc }

end SktPy

/-- C3 (code bug): on the very first merge_ref iteration the save_state
dictionary reads the not-yet-assigned local `head`, so cmd_merge raises
UnboundLocalError before writing any merge key: with one merge ref and
a merge oracle that would have succeeded, the persisted state holds
only baserepo, basehead, commitdate and mergelog — no mergerepo_00
(which the loop would in any case misspell as "meregerepo_00") and no
mergehead_00 are ever written. -/
theorem C3_merge_state_write_order_bug :
    (SktPy.cmd_merge
        { checkoutHead := "deadbeef", commitdate := 1500000000,
          tmpdir := "/tmp/skt",
          mergeGit := fun _ => (0, some "feedface"),
          gitHeadAfter := fun _ => "feedface",
          patchOk := fun _ => true, patchHeadAfter := fun _ => "p",
          pwOk := fun _ => true, pwHeadAfter := fun _ => "w" }
        0
        { baserepo := some "https://git.example/base.git",
          merge_ref := [("https://git.example/fix.git", some "master")],
          patchlist := none, pw := none,
          workdir := some "/wd" }).result =
      Except.error SktPy.MergeError.unboundLocalError ∧
    (SktPy.cmd_merge
        { checkoutHead := "deadbeef", commitdate := 1500000000,
          tmpdir := "/tmp/skt",
          mergeGit := fun _ => (0, some "feedface"),
          gitHeadAfter := fun _ => "feedface",
          patchOk := fun _ => true, patchHeadAfter := fun _ => "p",
          pwOk := fun _ => true, pwHeadAfter := fun _ => "w" }
        0
        { baserepo := some "https://git.example/base.git",
          merge_ref := [("https://git.example/fix.git", some "master")],
          patchlist := none, pw := none,
          workdir := some "/wd" }).saved =
      [("baserepo", some "https://git.example/base.git"),
       ("basehead", some "deadbeef"),
       ("commitdate", some "1500000000"),
       ("mergelog", some "/wd/merge.log")] := by
  exact ⟨rfl, rfl⟩

/-- A cmd_merge call that returned normally had an empty merge_ref list:
any non-empty list raises UnboundLocalError on its first iteration. -/
theorem cmd_merge_ok_merge_ref_nil (env : SktPy.MergeEnv) (retc0 : Nat)
    (cfg : SktPy.MergeCfg)
    (hok : (SktPy.cmd_merge env retc0 cfg).result = Except.ok ()) :
    cfg.merge_ref = [] := by
  cases hmr : cfg.merge_ref with
  | nil => rfl
  | cons mb rest =>
      rw [SktPy.cmd_merge, hmr] at hok
      simp [SktPy.mergeGitLoop] at hok

/-- On success the save_state log of cmd_merge decomposes into the
initial writes, the per-patch writes, and the final block carrying uid
computed from zero completed git merges. -/
theorem cmd_merge_ok_saved_shape (env : SktPy.MergeEnv) (retc0 : Nat)
    (cfg : SktPy.MergeCfg)
    (hok : (SktPy.cmd_merge env retc0 cfg).result = Except.ok ()) :
    ∃ ps ws cur2,
      (SktPy.cmd_merge env retc0 cfg).saved =
        SktPy.savedInit env cfg ++ ps ++ ws ++
          SktPy.finalSaves (cfg.workdir.getD env.tmpdir) cur2
            (SktPy.mergeUid 0 cfg) ∧
      (cfg.patchlist = none → ps = []) ∧
      (cfg.pw = none → ws = []) ∧
      (∀ pl, cfg.patchlist = some pl →
        (SktPy.patchLoop "localpatch_" env.patchOk env.patchHeadAfter
          0 env.checkoutHead pl).2.1 = ps) ∧
      (cfg.patchlist = none → cfg.pw = none → cur2 = env.checkoutHead) := by
  have hmr := cmd_merge_ok_merge_ref_nil env retc0 cfg hok
  rw [SktPy.cmd_merge, hmr] at hok ⊢
  simp only [SktPy.mergeGitLoop] at hok ⊢
  cases hpl : cfg.patchlist with
  | none =>
      simp only [hpl] at hok ⊢
      cases hpw : cfg.pw with
      | none =>
          refine ⟨[], [], env.checkoutHead, ?_, ?_, ?_, ?_, ?_⟩
          · simp [hpw]
          · intro _
            rfl
          · intro _
            rfl
          · intro pl h
            exact absurd h (by simp)
          · intro _ _
            rfl
      | some wl =>
          simp only [hpw] at hok ⊢
          rcases hres : SktPy.patchLoop "patchwork_" env.pwOk
              env.pwHeadAfter 0 env.checkoutHead wl with ⟨r, ws, c⟩
          cases r with
          | error u =>
              rw [hres] at hok
              simp at hok
          | ok u =>
              refine ⟨[], ws, c, ?_, ?_, ?_, ?_, ?_⟩
              · simp
              · intro _
                rfl
              · intro h
                exact absurd h (by simp)
              · intro pl h
                exact absurd h (by simp)
              · intro _ h
                exact absurd h (by simp)
  | some pl =>
      simp only [hpl] at hok ⊢
      rcases hresp : SktPy.patchLoop "localpatch_" env.patchOk
          env.patchHeadAfter 0 env.checkoutHead pl with ⟨rp, ps, cp⟩
      cases rp with
      | error p =>
          rw [hresp] at hok
          simp at hok
      | ok u =>
          rw [hresp] at hok
          cases hpw : cfg.pw with
          | none =>
              simp only [hpw] at hok ⊢
              refine ⟨ps, [], cp, ?_, ?_, ?_, ?_, ?_⟩
              · simp
              · intro h
                exact absurd h (by simp)
              · intro _
                rfl
              · intro pl2 h2
                have hpe : pl2 = pl := by
                  injection h2 with h3
                  exact h3.symm
                subst hpe
                rw [hresp]
              · intro h _
                exact absurd h (by simp)
          | some wl =>
              simp only [hpw] at hok ⊢
              rcases hresw : SktPy.patchLoop "patchwork_" env.pwOk
                  env.pwHeadAfter 0 cp wl with ⟨rw2, ws, cw⟩
              cases rw2 with
              | error u2 =>
                  simp at hok
                  rw [hresw] at hok
                  simp at hok
              | ok u2 =>
                  refine ⟨ps, ws, cw, ?_, ?_, ?_, ?_, ?_⟩
                  · simp
                  · intro h
                    exact absurd h (by simp)
                  · intro h
                    exact absurd h (by simp)
                  · intro pl2 h2
                    have hpe : pl2 = pl := by
                      injection h2 with h3
                      exact h3.symm
                    subst hpe
                    rw [hresp]
                  · intro h _
                    exact absurd h (by simp)

/-- C4: after cmd_merge completes successfully with no additional
sources, the persisted basehead and buildhead both equal the checkout
commit and uid is "[baseline]"; when additional sources are applied,
uid is the space-join of a tag list drawn from "[git]",
"[local patch]", "[patchwork]" holding each applicable tag exactly once
(and no "[git]" tag, since a successful completion implies the
merge_ref list was empty). -/
theorem C4_merge_uid_invariant (env : SktPy.MergeEnv) (retc0 : Nat)
    (cfg : SktPy.MergeCfg)
    (hok : (SktPy.cmd_merge env retc0 cfg).result = Except.ok ()) :
    (cfg.merge_ref = [] ∧ cfg.patchlist = none ∧ cfg.pw = none →
      lookupSaved (SktPy.cmd_merge env retc0 cfg).saved "uid" =
        some (some "[baseline]") ∧
      lookupSaved (SktPy.cmd_merge env retc0 cfg).saved "basehead" =
        some (some env.checkoutHead) ∧
      lookupSaved (SktPy.cmd_merge env retc0 cfg).saved "buildhead" =
        some (some env.checkoutHead)) ∧
    (cfg.patchlist.isSome = true ∨ cfg.pw.isSome = true →
      ∃ tags : List String,
        lookupSaved (SktPy.cmd_merge env retc0 cfg).saved "uid" =
          some (some (String.intercalate " " tags)) ∧
        (∀ t ∈ tags, t ∈ ["[git]", "[local patch]", "[patchwork]"]) ∧
        tags.count "[git]" = 0 ∧
        tags.count "[local patch]" =
          (if cfg.patchlist.isSome then 1 else 0) ∧
        tags.count "[patchwork]" =
          (if cfg.pw.isSome then 1 else 0)) := by
  obtain ⟨ps, ws, cur2, hsaved, hps, hws, _, hcur⟩ :=
    cmd_merge_ok_saved_shape env retc0 cfg hok
  constructor
  · rintro ⟨hmr, hpl, hpw⟩
    have hps' := hps hpl
    have hws' := hws hpw
    have hcur' := hcur hpl hpw
    subst hps' hws' hcur'
    have huid : SktPy.mergeUid 0 cfg = "[baseline]" := by
      simp [SktPy.mergeUid, SktPy.mergeUtypes, hpl, hpw]
    rw [hsaved, huid]
    refine ⟨?_, ?_, ?_⟩ <;>
      simp [lookupSaved_append, lookupSaved, getK, SktPy.savedInit,
        SktPy.finalSaves]
  · intro hor
    have hne : (SktPy.mergeUtypes 0 cfg).isEmpty = false := by
      rcases hor with h | h <;> simp [SktPy.mergeUtypes, h]
    have huid : SktPy.mergeUid 0 cfg =
        String.intercalate " " (SktPy.mergeUtypes 0 cfg) := by
      simp [SktPy.mergeUid, hne]
    refine ⟨SktPy.mergeUtypes 0 cfg, ?_, ?_, ?_, ?_, ?_⟩
    · rw [hsaved, huid]
      simp [lookupSaved_append, lookupSaved, getK, SktPy.finalSaves]
    · intro t ht
      cases hp : cfg.patchlist.isSome <;> cases hw : cfg.pw.isSome <;>
        rw [SktPy.mergeUtypes, hp, hw] at ht <;> simp at ht <;>
        simp [ht]
    · cases hp : cfg.patchlist.isSome <;> cases hw : cfg.pw.isSome <;>
        simp [SktPy.mergeUtypes, hp, hw]
    · cases hp : cfg.patchlist.isSome <;> cases hw : cfg.pw.isSome <;>
        simp [SktPy.mergeUtypes, hp, hw]
    · cases hp : cfg.patchlist.isSome <;> cases hw : cfg.pw.isSome <;>
        simp [SktPy.mergeUtypes, hp, hw]

/-- Witness for C4 at a concrete input: one local patch and no other
sources; the run succeeds and uid is a space-joined tag list with
exactly one "[local patch]" tag. -/
theorem C4_merge_uid_invariant_witness :
    ∃ tags : List String,
      lookupSaved (SktPy.cmd_merge
        { checkoutHead := "deadbeef", commitdate := 1500000000,
          tmpdir := "/tmp/skt",
          mergeGit := fun _ => (0, some "feedface"),
          gitHeadAfter := fun _ => "feedface",
          patchOk := fun _ => true,
          patchHeadAfter := fun _ => "patched1",
          pwOk := fun _ => true, pwHeadAfter := fun _ => "w" }
        0
        { baserepo := some "https://git.example/base.git",
          merge_ref := [], patchlist := some ["/p1.patch"], pw := none,
          workdir := some "/wd" }).saved "uid" =
        some (some (String.intercalate " " tags)) ∧
      (∀ t ∈ tags, t ∈ ["[git]", "[local patch]", "[patchwork]"]) ∧
      tags.count "[git]" = 0 ∧
      tags.count "[local patch]" =
        (if (some ["/p1.patch"] : Option (List String)).isSome
          then 1 else 0) ∧
      tags.count "[patchwork]" =
        (if (none : Option (List String)).isSome then 1 else 0) := by
  exact (C4_merge_uid_invariant
    { checkoutHead := "deadbeef", commitdate := 1500000000,
      tmpdir := "/tmp/skt",
      mergeGit := fun _ => (0, some "feedface"),
      gitHeadAfter := fun _ => "feedface",
      patchOk := fun _ => true,
      patchHeadAfter := fun _ => "patched1",
      pwOk := fun _ => true, pwHeadAfter := fun _ => "w" }
    0
    { baserepo := some "https://git.example/base.git",
      merge_ref := [], patchlist := some ["/p1.patch"], pw := none,
      workdir := some "/wd" }
    rfl).2 (Or.inl rfl)

namespace SktPy

/-!
Embedding of cmd_run from skt.py.

The runner and publisher objects live in modules the pipeline drives
(skt.runner, skt.publisher); the scheduler side is abstracted into the
oracle `RunEnv` (aggregate result, job ids, most-failing host and its
architecture, baseline result), while submissions and baseline runs
are recorded in the output so their parameters can be inspected.
-/

/-- Python truthiness of an optional string value. -/
def truthyStr : Option String → Bool
  | none => false
  | some s => s != ""

/-- The publisher descriptor (type, destination, baseurl). -/
structure Publisher where
  ptype : String
  destination : String
  baseurl : String
deriving DecidableEq, Repr

/-- Modelled from the spec: the geturl operation of skt.publisher (the skt.publisher
module is not among the sources); per the spec it constructs the
retrieval URL from base_url without uploading, and the baseline retest
URL is documented as "{publisher.baseurl}/{basehead}_{mfarch}.tar.gz". -/
def geturl (p : Publisher) (name : String) : String :=
  p.baseurl ++ "/" ++ name

/-- Oracle for the scheduler interactions of cmd_run. -/
structure RunEnv where
  /-- platform.machine(). -/
  machine : String
  /-- runner.getresults() after watchloop(). -/
  getresults : Nat
  /-- runner.jobs, in iteration order. -/
  jobs : List String
  /-- runner.get_mfhost(). -/
  mfhost : String
  /-- runner.hostarch(mfhost). -/
  mfarch : String
  /-- Return code of baserunner.run(...). -/
  baseres : Nat

/-- The configuration fields cmd_run reads. -/
structure RunCfg where
  /-- archdata[arch][field]; None when the key is absent or null. -/
  archdata : Option (List (String × List (String × String)))
  buildurl : Option String
  cfgurl : Option String
  krelease : Option String
  uid : Option String
  basehead : Option String
  buildhead : Option String
  publisher : Option Publisher
  wait : Bool
  junit : Option String

/-- One baserunner.run call with its keyword arguments. -/
structure BaselineRun where
  url : String
  krelease : Option String
  wait : Bool
  host : String
  uid : String
  reschedule : Bool
deriving DecidableEq, Repr

/-- Observable outcome of cmd_run. -/
structure RunOut where
  /-- One prepare_and_submit call per archdata entry:
  (buildurl, krelease, uid, arch). -/
  submissions : List (Option String × Option String × Option String × String)
  /-- Jobs passed to dumpjunitresults. -/
  junitDumps : List String
  saved : List (String × Option String)
  baselineRuns : List BaselineRun
  retcode : Nat

/-- Set archdata[arch][field] = v, creating the arch entry first when
missing (the has_key guard of the source). -/
def archSet (m : List (String × List (String × String)))
    (arch field v : String) : List (String × List (String × String)) :=
  let m1 := if (getK m arch).isSome then m else setK m arch []
  setK m1 arch (setK ((getK m1 arch).getD []) field v)

/-- The jobid save_state writes: "jobid_%s" % idx — an UNPADDED decimal
index, unlike the %02d keys of the merge stage. -/
def jobidSaves (idx : Nat) : List String → List (String × Option String)
  | [] => []
  | j :: rest => ("jobid_" ++ toString idx, some j) :: jobidSaves (idx + 1) rest

/-- Embedding of cmd_run. -/
def cmd_run (env : RunEnv) (cfg : RunCfg) : RunOut :=
  let ad0 := cfg.archdata.getD []
  let ad1 := if truthyStr cfg.buildurl then
      archSet ad0 env.machine "buildurl" (cfg.buildurl.getD "")
    else ad0
  let ad2 := if truthyStr cfg.cfgurl then
      archSet ad1 env.machine "cfgurl" (cfg.cfgurl.getD "")
    else ad1
  let submissions := ad2.map
    (fun e => (getK e.2 "buildurl", cfg.krelease, cfg.uid, e.1))
  let rc1 := env.getresults
  let jobsSaved := jobidSaves 0 env.jobs
  let dumps := if cfg.wait && cfg.junit.isSome then env.jobs else []
  let blk :=
    if rc1 ≠ 0 then
      let s1 := [("mfhost", some env.mfhost), ("mfarch", some env.mfarch)]
      if truthyStr cfg.basehead = true ∧ cfg.publisher.isSome = true ∧
          cfg.basehead ≠ cfg.buildhead then
        match cfg.publisher with
        | some pub =>
            let baseurl := geturl pub
              ((cfg.basehead.getD "") ++ "_" ++ env.mfarch ++ ".tar.gz")
            let runs := [{ url := baseurl, krelease := cfg.krelease,
                           wait := cfg.wait, host := env.mfhost,
                           uid := "baseline check",
                           reschedule := false : BaselineRun }]
            (s1 ++ [("baseretcode", some (toString env.baseres))], runs,
             if env.baseres ≠ 0 then 0 else rc1)
        | none => (s1, ([] : List BaselineRun), rc1)
      else (s1, ([] : List BaselineRun), rc1)
    else ([], ([] : List BaselineRun), rc1)
  { submissions := submissions,
    junitDumps := dumps,
    saved := jobsSaved ++ blk.1 ++ [("retcode", some (toString blk.2.2))],
    baselineRuns := blk.2.1,
    retcode := blk.2.2 }

end SktPy

/-- C1: in the RUN stage, when the aggregate result is non-zero,
basehead is known (non-empty), a publisher is configured and basehead
differs from buildhead, exactly one baseline job runs on host mfhost
with URL "{base_url}/{basehead}_{mfarch}.tar.gz", uid "baseline check"
and reschedule False; its return code is persisted as baseretcode; a
non-zero baseline result coerces retcode back to 0; and after the
stage, retcode is 0 iff every job passed or the baseline retest also
failed. -/
theorem C1_run_baseline_retest (env : SktPy.RunEnv) (cfg : SktPy.RunCfg)
    (pub : SktPy.Publisher) (bh : String)
    (hres : env.getresults ≠ 0)
    (hbh : cfg.basehead = some bh)
    (hbne : bh ≠ "")
    (hpub : cfg.publisher = some pub)
    (hne : cfg.basehead ≠ cfg.buildhead) :
    (SktPy.cmd_run env cfg).baselineRuns =
      [{ url := pub.baseurl ++ "/" ++ bh ++ "_" ++ env.mfarch ++ ".tar.gz",
         krelease := cfg.krelease, wait := cfg.wait, host := env.mfhost,
         uid := "baseline check", reschedule := false }] ∧
    lookupSaved (SktPy.cmd_run env cfg).saved "baseretcode" =
      some (some (toString env.baseres)) ∧
    (env.baseres ≠ 0 → (SktPy.cmd_run env cfg).retcode = 0) ∧
    ((SktPy.cmd_run env cfg).retcode = 0 ↔
      (env.getresults = 0 ∨ env.baseres ≠ 0)) := by
  have ht1 : SktPy.truthyStr (some bh) = true := by
    simp [SktPy.truthyStr, hbne]
  have hne2 : ¬ some bh = cfg.buildhead := hbh ▸ hne
  refine ⟨?_, ?_, ?_, ?_⟩
  · simp [SktPy.cmd_run, hres, hpub, hbh, ht1, hne2, SktPy.geturl,
      String.append_assoc]
  · simp [SktPy.cmd_run, hres, hpub, hbh, ht1, hne2, lookupSaved_append,
      lookupSaved, getK]
  · intro hb
    simp [SktPy.cmd_run, hres, hpub, hbh, ht1, hne2, hb]
  · by_cases hb : env.baseres = 0
    · simp [SktPy.cmd_run, hres, hpub, hbh, ht1, hne2, hb]
    · simp [SktPy.cmd_run, hres, hpub, hbh, ht1, hne2, hb]

/-- Witness for C1 at a concrete failed run with a configured publisher
and a baseline that also fails, coercing retcode to 0. -/
theorem C1_run_baseline_retest_witness :
    (SktPy.cmd_run
      { machine := "x86_64", getresults := 1, jobs := ["J:1"],
        mfhost := "h1.lab", mfarch := "x86_64", baseres := 1 }
      { archdata := none, buildurl := none, cfgurl := none,
        krelease := some "4.17.0", uid := some "[git]",
        basehead := some "deadbeef", buildhead := some "feedface",
        publisher := some
          { ptype := "scp", destination := "d", baseurl := "http://pub" },
        wait := true, junit := none }).baselineRuns =
      [{ url := "http://pub" ++ "/" ++ "deadbeef" ++ "_" ++ "x86_64" ++
           ".tar.gz",
         krelease := some "4.17.0", wait := true, host := "h1.lab",
         uid := "baseline check", reschedule := false }] ∧
    lookupSaved (SktPy.cmd_run
      { machine := "x86_64", getresults := 1, jobs := ["J:1"],
        mfhost := "h1.lab", mfarch := "x86_64", baseres := 1 }
      { archdata := none, buildurl := none, cfgurl := none,
        krelease := some "4.17.0", uid := some "[git]",
        basehead := some "deadbeef", buildhead := some "feedface",
        publisher := some
          { ptype := "scp", destination := "d", baseurl := "http://pub" },
        wait := true, junit := none }).saved "baseretcode" =
      some (some (toString 1)) ∧
    ((1 : Nat) ≠ 0 → (SktPy.cmd_run
      { machine := "x86_64", getresults := 1, jobs := ["J:1"],
        mfhost := "h1.lab", mfarch := "x86_64", baseres := 1 }
      { archdata := none, buildurl := none, cfgurl := none,
        krelease := some "4.17.0", uid := some "[git]",
        basehead := some "deadbeef", buildhead := some "feedface",
        publisher := some
          { ptype := "scp", destination := "d", baseurl := "http://pub" },
        wait := true, junit := none }).retcode = 0) ∧
    ((SktPy.cmd_run
      { machine := "x86_64", getresults := 1, jobs := ["J:1"],
        mfhost := "h1.lab", mfarch := "x86_64", baseres := 1 }
      { archdata := none, buildurl := none, cfgurl := none,
        krelease := some "4.17.0", uid := some "[git]",
        basehead := some "deadbeef", buildhead := some "feedface",
        publisher := some
          { ptype := "scp", destination := "d", baseurl := "http://pub" },
        wait := true, junit := none }).retcode = 0 ↔
      ((1 : Nat) = 0 ∨ (1 : Nat) ≠ 0)) := by
  exact C1_run_baseline_retest
    { machine := "x86_64", getresults := 1, jobs := ["J:1"],
      mfhost := "h1.lab", mfarch := "x86_64", baseres := 1 }
    { archdata := none, buildurl := none, cfgurl := none,
      krelease := some "4.17.0", uid := some "[git]",
      basehead := some "deadbeef", buildhead := some "feedface",
      publisher := some
        { ptype := "scp", destination := "d", baseurl := "http://pub" },
      wait := true, junit := none }
    { ptype := "scp", destination := "d", baseurl := "http://pub" }
    "deadbeef" (by decide) rfl (by decide) rfl (by decide)

theorem patchLoop_keys (key : String) (ok : Nat → Bool)
    (after : Nat → String) (h : ∀ j, ok j = true) :
    ∀ (pl : List String) (idx : Nat) (cur : String),
      ((SktPy.patchLoop key ok after idx cur pl).2.1).map Prod.fst =
        (List.range pl.length).map (fun j => key ++ pad2 (idx + j)) := by
  intro pl
  induction pl with
  | nil =>
      intro idx cur
      simp [SktPy.patchLoop]
  | cons p rest ih =>
      intro idx cur
      simp only [SktPy.patchLoop, h idx, if_true]
      rcases hres : SktPy.patchLoop key ok after (idx + 1) (after idx) rest
        with ⟨r, s, c⟩
      have ihs := ih (idx + 1) (after idx)
      rw [hres] at ihs
      show ((key ++ pad2 idx, some p) :: s).map Prod.fst =
        (List.range (rest.length + 1)).map (fun j => key ++ pad2 (idx + j))
      rw [List.map_cons, ihs, List.range_succ_eq_map, List.map_cons,
        List.map_map]
      congr 1
      apply List.map_congr_left
      intro a _
      simp only [Function.comp]
      exact congrArg (fun n => key ++ pad2 n) (by omega)

theorem jobidSaves_keys :
    ∀ (jobs : List String) (idx : Nat),
      (SktPy.jobidSaves idx jobs).map Prod.fst =
        (List.range jobs.length).map
          (fun i => "jobid_" ++ toString (idx + i)) := by
  intro jobs
  induction jobs with
  | nil =>
      intro idx
      simp [SktPy.jobidSaves]
  | cons j rest ih =>
      intro idx
      show ("jobid_" ++ toString idx) :: (SktPy.jobidSaves (idx + 1) rest).map Prod.fst =
        (List.range (rest.length + 1)).map
          (fun i => "jobid_" ++ toString (idx + i))
      rw [ih (idx + 1), List.range_succ_eq_map, List.map_cons,
        List.map_map]
      congr 1
      apply List.map_congr_left
      intro a _
      simp only [Function.comp]
      exact congrArg (fun n => "jobid_" ++ toString n) (by omega)

/-- C6 counterexample: in a concrete run with one job the persisted key
is "jobid_0" — an unpadded single digit — and no "jobid_00" key exists,
refuting the claim that every indexed state key carries a zero-padded
two-digit suffix starting at 00. -/
theorem C6_jobid_key_unpadded_cex :
    lookupSaved (SktPy.cmd_run
      { machine := "x86_64", getresults := 0, jobs := ["J:1"],
        mfhost := "h", mfarch := "x86_64", baseres := 0 }
      { archdata := none, buildurl := none, cfgurl := none,
        krelease := none, uid := none, basehead := none,
        buildhead := none, publisher := none, wait := false,
        junit := none }).saved "jobid_0" = some (some "J:1") ∧
    lookupSaved (SktPy.cmd_run
      { machine := "x86_64", getresults := 0, jobs := ["J:1"],
        mfhost := "h", mfarch := "x86_64", baseres := 0 }
      { archdata := none, buildurl := none, cfgurl := none,
        krelease := none, uid := none, basehead := none,
        buildhead := none, publisher := none, wait := false,
        junit := none }).saved "jobid_00" = none := by
  exact ⟨rfl, rfl⟩

/-- C6 amended: the merge-stage indexed keys (localpatch_NN,
patchwork_NN, and the merge-loop keys, all written through patchLoop or
the "%02d" format) use zero-padded two-digit suffixes starting at 00
and contiguous within their category, while the jobid keys written by
cmd_run use an UNPADDED decimal suffix starting at 0 (jobid_0, jobid_1,
...), contiguous and in job order. -/
theorem C6_indexed_keys_amended :
    (∀ i, i < 100 → (pad2 i).length = 2) ∧
    (∀ (key : String) (ok : Nat → Bool) (after : Nat → String)
        (cur : String) (pl : List String), (∀ j, ok j = true) →
      ((SktPy.patchLoop key ok after 0 cur pl).2.1).map Prod.fst =
        (List.range pl.length).map (fun j => key ++ pad2 j)) ∧
    (∀ jobs : List String,
      (SktPy.jobidSaves 0 jobs).map Prod.fst =
        (List.range jobs.length).map (fun i => "jobid_" ++ toString i)) ∧
    (∀ (env : SktPy.RunEnv) (cfg : SktPy.RunCfg),
      ∃ rest, (SktPy.cmd_run env cfg).saved =
        SktPy.jobidSaves 0 env.jobs ++ rest) := by
  refine ⟨by decide, ?_, ?_, ?_⟩
  · intro key ok after cur pl h
    have := patchLoop_keys key ok after h pl 0 cur
    simpa using this
  · intro jobs
    have := jobidSaves_keys jobs 0
    simpa using this
  · intro env cfg
    exact ⟨_, List.append_assoc _ _ _⟩

/-- Witness for C6 amended, at two concrete local patches: keys
localpatch_00 and localpatch_01. -/
theorem C6_indexed_keys_amended_witness :
    ((SktPy.patchLoop "localpatch_" (fun _ => true) (fun _ => "h") 0 "c"
        ["/p0.patch", "/p1.patch"]).2.1).map Prod.fst =
      (List.range (["/p0.patch", "/p1.patch"] : List String).length).map
        (fun j => "localpatch_" ++ pad2 j) := by
  exact C6_indexed_keys_amended.2.1 "localpatch_" (fun _ => true)
    (fun _ => "h") "c" ["/p0.patch", "/p1.patch"] (fun _ => rfl)

namespace SktPy

/-!
Embedding of the junit stage-wrapper decorator and of cmd_all from
skt.py.  Stage bodies are abstracted to whether they raise and to the
assignment they make to the process-global retcode (cmd_run assigns
runner.getresults(); cmd_merge may assign the merge loop result; the
other bodies leave retcode alone).  cmd_report and cmd_cleanup are NOT
junit-wrapped in the source, so their exceptions always propagate.
-/

/-- Abstracted behavior of one `all` invocation. -/
structure AllEnv where
  junit : Option String
  wait : Bool
  mergeRaises : Bool
  buildRaises : Bool
  publishRaises : Bool
  runRaises : Bool
  reportRaises : Bool
  cleanupRaises : Bool
  /-- retcode assignment performed by a completing cmd_merge body. -/
  mergeSet : Option Nat
  /-- runner.getresults() assigned to retcode by a completing cmd_run. -/
  runResult : Nat

/-- Process state threaded through the stages of cmd_all: the global
retcode, the structured-result test cases (name, failed), the list of
stage bodies that started executing, and whether an uncaught exception
has escaped (once escaped, nothing further runs). -/
structure AllSt where
  retcode : Nat
  testcases : List (String × Bool)
  trace : List String
  escaped : Bool
deriving DecidableEq, Repr

/-- The junit decorator around a stage: with --junit, run the body in a
try block, record a failed test case and set retcode to 1 on an
exception, and mark the case failed when the body left a non-zero
retcode; without --junit, just run the body, letting exceptions
propagate. -/
def junitStage (junit : Option String) (name : String) (raises : Bool)
    (setR : Option Nat) (st : AllSt) : AllSt :=
  if st.escaped then st
  else if junit.isSome then
    let st1 := { st with trace := st.trace ++ [name] }
    if raises then
      { st1 with retcode := 1, testcases := st1.testcases ++ [(name, true)] }
    else
      let st2 := { st1 with retcode := setR.getD st1.retcode }
      { st2 with testcases := st2.testcases ++ [(name, st2.retcode != 0)] }
  else
    let st1 := { st with trace := st.trace ++ [name] }
    if raises then { st1 with escaped := true }
    else { st1 with retcode := setR.getD st1.retcode }

/-- An unwrapped stage (cmd_report, cmd_cleanup): exceptions always
propagate. -/
def plainStage (name : String) (raises : Bool) (st : AllSt) : AllSt :=
  if st.escaped then st
  else
    let st1 := { st with trace := st.trace ++ [name] }
    if raises then { st1 with escaped := true } else st1

/-- Embedding of cmd_all: merge, build, publish, run (wrapped), then
report only when wait is True, then cleanup — both unwrapped. -/
def cmd_all (env : AllEnv) : AllSt :=
  let st0 : AllSt := { retcode := 0, testcases := [], trace := [],
                       escaped := false }
  let s1 := junitStage env.junit "cmd_merge" env.mergeRaises env.mergeSet st0
  let s2 := junitStage env.junit "cmd_build" env.buildRaises none s1
  let s3 := junitStage env.junit "cmd_publish" env.publishRaises none s2
  let s4 := junitStage env.junit "cmd_run" env.runRaises
    (some env.runResult) s3
  let s5 := if env.wait = true then
      plainStage "cmd_report" env.reportRaises s4
    else s4
  plainStage "cmd_cleanup" env.cleanupRaises s5

end SktPy

/-- C2 counterexample: with --junit set and cmd_merge raising, the
wrapper does catch the exception, mark the test case failed and set
retcode to 1, but every later stage still runs — the trace shows build,
publish, run and cleanup executing after the caught merge failure,
refuting "no later stage runs". -/
theorem C2_later_stages_still_run_cex :
    (SktPy.cmd_all
      { junit := some "jdir", wait := false, mergeRaises := true,
        buildRaises := false, publishRaises := false, runRaises := false,
        reportRaises := false, cleanupRaises := false, mergeSet := none,
        runResult := 0 }).trace =
      ["cmd_merge", "cmd_build", "cmd_publish", "cmd_run",
       "cmd_cleanup"] ∧
    ("cmd_merge", true) ∈ (SktPy.cmd_all
      { junit := some "jdir", wait := false, mergeRaises := true,
        buildRaises := false, publishRaises := false, runRaises := false,
        reportRaises := false, cleanupRaises := false, mergeSet := none,
        runResult := 0 }).testcases ∧
    (SktPy.junitStage (some "jdir") "cmd_merge" true none
      { retcode := 0, testcases := [], trace := [],
        escaped := false }).retcode = 1 := by
  refine ⟨rfl, ?_, rfl⟩
  decide

/-- C2 amended: when --junit is set, the stage wrapper catches a raised
exception, marks the structured-result case of the stage as failed, and sets
the process-global retcode to 1, but later stages still run: every
wrapped stage executes, report runs iff wait is set, and CLEANUP runs
at the end of `all` unless REPORT raised (report and cleanup are not
wrapped).  When --junit is unset the exception propagates, so an
exception in MERGE means no later stage — including CLEANUP — ever
runs. -/
theorem C2_stage_wrapper_amended (env : SktPy.AllEnv) :
    (∀ (j : Option String) (name : String) (setR : Option Nat)
        (st : SktPy.AllSt), j.isSome = true → st.escaped = false →
      SktPy.junitStage j name true setR st =
        { retcode := 1, testcases := st.testcases ++ [(name, true)],
          trace := st.trace ++ [name], escaped := false }) ∧
    (env.junit.isSome = true →
      (SktPy.cmd_all env).trace =
        ["cmd_merge", "cmd_build", "cmd_publish", "cmd_run"] ++
          (if env.wait then ["cmd_report"] else []) ++
          (if env.wait && env.reportRaises then []
           else ["cmd_cleanup"])) ∧
    (env.junit = none → env.mergeRaises = true →
      (SktPy.cmd_all env).trace = ["cmd_merge"] ∧
      (SktPy.cmd_all env).escaped = true) := by
  refine ⟨?_, ?_, ?_⟩
  · intro j name setR st hj he
    simp [SktPy.junitStage, hj, he]
  · intro hj
    obtain ⟨jv, hjv⟩ := Option.isSome_iff_exists.mp hj
    obtain ⟨junit, wait, mr, br, pr, rr, rpr, cr, ms, rres⟩ := env
    simp only at hjv ⊢
    subst hjv
    cases mr <;> cases br <;> cases pr <;> cases rr <;> cases wait <;>
      cases rpr <;> cases cr <;>
      simp [SktPy.cmd_all, SktPy.junitStage, SktPy.plainStage]
  · intro hjn hmr
    obtain ⟨junit, wait, mr, br, pr, rr, rpr, cr, ms, rres⟩ := env
    simp only at hjn hmr ⊢
    subst hjn
    subst hmr
    cases wait <;>
      simp [SktPy.cmd_all, SktPy.junitStage, SktPy.plainStage]

/-- Witness for C2 amended at a concrete environment: junit set, wait
set, report raising — all wrapped stages run and cleanup is skipped. -/
theorem C2_stage_wrapper_amended_witness :
    (SktPy.cmd_all
      { junit := some "jdir", wait := true, mergeRaises := true,
        buildRaises := false, publishRaises := false, runRaises := false,
        reportRaises := true, cleanupRaises := false, mergeSet := none,
        runResult := 0 }).trace =
      ["cmd_merge", "cmd_build", "cmd_publish", "cmd_run"] ++
        (if true then ["cmd_report"] else []) ++
        (if true && true then [] else ["cmd_cleanup"]) := by
  exact (C2_stage_wrapper_amended
    { junit := some "jdir", wait := true, mergeRaises := true,
      buildRaises := false, publishRaises := false, runRaises := false,
      reportRaises := true, cleanupRaises := false, mergeSet := none,
      runResult := 0 }).2.1 rfl

namespace SktPy

/-!
Embedding of the state/config overlay portion of load_config from
skt.py (the section that reads the [state] and [config]
sections of the rc file into the in-memory configuration, never overwriting a value
the command line provided).

Configuration values are Python objects: None, booleans (--wipe,
--state, --wait), ints (--verbose), strings, lists of strings
(--patchlist, --pw), the jobs set and the aggregate lists and dict the
state loop synthesizes.
-/

/-- A Python value held in the configuration dictionary. -/
inductive PVal where
  | none
  | bool (b : Bool)
  | int (n : Int)
  | str (s : String)
  | strList (l : List String)
  | strSet (l : List String)
  | arch (m : List (String × List (String × String)))
deriving DecidableEq, Repr

/-- Python truthiness of a configuration value (absent counts false). -/
def pvTruthy : Option PVal → Bool
  | Option.none => false
  | some PVal.none => false
  | some (PVal.bool b) => b
  | some (PVal.int n) => n != 0
  | some (PVal.str s) => s != ""
  | some (PVal.strList l) => !l.isEmpty
  | some (PVal.strSet l) => !l.isEmpty
  | some (PVal.arch m) => !m.isEmpty

/-- The guard `name not in cfg or cfg.get(name) == None`: the value may
be overlaid only when the command line left it absent or None. -/
def cliUnset (cfg : List (String × PVal)) (name : String) : Bool :=
  match getK cfg name with
  | Option.none => true
  | some PVal.none => true
  | some _ => false

/-- cfg["jobs"].add(value), creating the set when the key is absent.
A present non-set value would raise AttributeError in Python; that is
unreachable because only this branch ever creates the key. -/
def addToSet (cfg : List (String × PVal)) (key v : String) :
    List (String × PVal) :=
  match getK cfg key with
  | some (PVal.strSet l) =>
      setK cfg key (PVal.strSet (if l.contains v then l else l ++ [v]))
  | Option.none => setK cfg key (PVal.strSet [v])
  | some _ => cfg

/-- cfg[key].append(value), creating the list when the key is absent. -/
def addToList (cfg : List (String × PVal)) (key v : String) :
    List (String × PVal) :=
  match getK cfg key with
  | some (PVal.strList l) => setK cfg key (PVal.strList (l ++ [v]))
  | Option.none => setK cfg key (PVal.strList [v])
  | some _ => cfg

/-- name.split("_", 1) for the archdata prefixes (an underscore is
guaranteed by the matched prefix). -/
def splitFirstUnder (s : String) : String × String :=
  (⟨s.data.takeWhile (fun c => c != '_')⟩,
   ⟨(s.data.dropWhile (fun c => c != '_')).drop 1⟩)

/-- cfg["archdata"][oarch][otype] = value, creating the dict and the
per-arch entry when absent. -/
def archDataAdd (cfg : List (String × PVal)) (name value : String) :
    List (String × PVal) :=
  let p := splitFirstUnder name
  let m := match getK cfg "archdata" with
    | some (PVal.arch m) => m
    | _ => []
  let sub := (getK m p.2).getD []
  setK cfg "archdata" (PVal.arch (setK m p.2 (setK sub p.1 value)))

/-- One iteration of the `for (name, value) in config.items("state")`
loop: under the no-overwrite guard, expand the indexed key into its
aggregate (jobs set, merge/patch lists, archdata dict) and store the
raw value under its own name. -/
def stateStep (cfg : List (String × PVal)) (item : String × String) :
    List (String × PVal) :=
  if cliUnset cfg item.1 then
    let cfg1 :=
      if strStartsWith item.1 "jobid_" then addToSet cfg "jobs" item.2
      else if strStartsWith item.1 "mergerepo_" then
        addToList cfg "mergerepos" item.2
      else if strStartsWith item.1 "mergehead_" then
        addToList cfg "mergeheads" item.2
      else if strStartsWith item.1 "localpatch_" then
        addToList cfg "localpatches" item.2
      else if strStartsWith item.1 "patchwork_" then
        addToList cfg "patchworks" item.2
      else if strStartsWith item.1 "tarpkg_" ||
          strStartsWith item.1 "buildconf_" ||
          strStartsWith item.1 "buildurl_" ||
          strStartsWith item.1 "cfgurl_" ||
          strStartsWith item.1 "buildlog_" then
        archDataAdd cfg item.1 item.2
      else cfg
    setK cfg1 item.1 (PVal.str item.2)
  else cfg

/-- One iteration of the `for (name, value) in config.items("config")`
loop: plain guarded store. -/
def configStep (cfg : List (String × PVal)) (item : String × String) :
    List (String × PVal) :=
  if cliUnset cfg item.1 then setK cfg item.1 (PVal.str item.2) else cfg

/-- Embedding of the overlay portion of load_config: the [state]
section is read first — and only when the --state flag made
cfg.get("state") truthy — then the [config] section, both under the
no-overwrite guard. -/
def load_config (cfg0 : List (String × PVal)) (hasStateSection : Bool)
    (stateItems : List (String × String)) (hasConfigSection : Bool)
    (configItems : List (String × String)) : List (String × PVal) :=
  let cfg1 := if pvTruthy (getK cfg0 "state") && hasStateSection then
      stateItems.foldl stateStep cfg0
    else cfg0
  if hasConfigSection then configItems.foldl configStep cfg1 else cfg1

/-- The destination names argparse defines for command-line values (the
keys a CLI-provided value can live under). -/
def cliKeys : List String :=
  ["workdir", "wipe", "junit", "verbose", "rc", "state",
   "baserepo", "ref", "patchlist", "pw", "merge_ref",
   "baseconfig", "cfgtype", "makeopts",
   "publisher", "tarpkg", "buildinfo",
   "runner", "buildurl", "krelease", "wait", "reporter"]

end SktPy

theorem getK_addToSet_ne (cfg : List (String × SktPy.PVal))
    (key v k : String) (h : key ≠ k) :
    getK (SktPy.addToSet cfg key v) k = getK cfg k := by
  unfold SktPy.addToSet
  cases hg : getK cfg key with
  | none => exact getK_setK_ne cfg k key _ h
  | some pv => cases pv <;> first
      | rfl
      | exact getK_setK_ne cfg k key _ h

theorem getK_addToList_ne (cfg : List (String × SktPy.PVal))
    (key v k : String) (h : key ≠ k) :
    getK (SktPy.addToList cfg key v) k = getK cfg k := by
  unfold SktPy.addToList
  cases hg : getK cfg key with
  | none => exact getK_setK_ne cfg k key _ h
  | some pv => cases pv <;> first
      | rfl
      | exact getK_setK_ne cfg k key _ h

theorem getK_archDataAdd_ne (cfg : List (String × SktPy.PVal))
    (n v k : String) (h : "archdata" ≠ k) :
    getK (SktPy.archDataAdd cfg n v) k = getK cfg k := by
  unfold SktPy.archDataAdd
  exact getK_setK_ne cfg k "archdata" _ h

theorem stateStep_getK_other (cfg : List (String × SktPy.PVal))
    (n w k : String) (hn : n ≠ k) (hk : k ∈ SktPy.cliKeys) :
    getK (SktPy.stateStep cfg (n, w)) k = getK cfg k := by
  have hjobs : "jobs" ≠ k := fun h => by
    subst h; revert hk; decide
  have hmrep : "mergerepos" ≠ k := fun h => by
    subst h; revert hk; decide
  have hmhead : "mergeheads" ≠ k := fun h => by
    subst h; revert hk; decide
  have hlp : "localpatches" ≠ k := fun h => by
    subst h; revert hk; decide
  have hpw : "patchworks" ≠ k := fun h => by
    subst h; revert hk; decide
  have harch : "archdata" ≠ k := fun h => by
    subst h; revert hk; decide
  by_cases hg : SktPy.cliUnset cfg n = true
  · simp only [SktPy.stateStep, hg, if_true]
    rw [getK_setK_ne _ _ _ _ hn]
    split_ifs
    · exact getK_addToSet_ne _ _ _ _ hjobs
    · exact getK_addToList_ne _ _ _ _ hmrep
    · exact getK_addToList_ne _ _ _ _ hmhead
    · exact getK_addToList_ne _ _ _ _ hlp
    · exact getK_addToList_ne _ _ _ _ hpw
    · exact getK_archDataAdd_ne _ _ _ _ harch
    · rfl
  · simp only [SktPy.stateStep]
    rw [if_neg hg]

theorem cliUnset_false_of_some (cfg : List (String × SktPy.PVal))
    (k : String) (v : SktPy.PVal) (hv : getK cfg k = some v)
    (hvn : v ≠ SktPy.PVal.none) : SktPy.cliUnset cfg k = false := by
  unfold SktPy.cliUnset
  rw [hv]
  cases v with
  | none => exact absurd rfl hvn
  | bool b => rfl
  | int n => rfl
  | str s => rfl
  | strList l => rfl
  | strSet l => rfl
  | arch m => rfl

theorem stateStep_preserve (cfg : List (String × SktPy.PVal))
    (n w k : String) (v : SktPy.PVal) (hv : getK cfg k = some v)
    (hvn : v ≠ SktPy.PVal.none) (hk : k ∈ SktPy.cliKeys) :
    getK (SktPy.stateStep cfg (n, w)) k = some v := by
  by_cases hn : n = k
  · subst hn
    have hgu := cliUnset_false_of_some cfg n v hv hvn
    simp only [SktPy.stateStep, hgu]
    simpa using hv
  · rw [stateStep_getK_other cfg n w k hn hk, hv]

theorem stateFold_preserve (items : List (String × String)) :
    ∀ (cfg : List (String × SktPy.PVal)) (k : String) (v : SktPy.PVal),
      getK cfg k = some v → v ≠ SktPy.PVal.none → k ∈ SktPy.cliKeys →
      getK (items.foldl SktPy.stateStep cfg) k = some v := by
  induction items with
  | nil =>
      intro cfg k v hv _ _
      simpa using hv
  | cons item rest ih =>
      intro cfg k v hv hvn hk
      obtain ⟨n, w⟩ := item
      rw [List.foldl_cons]
      exact ih _ k v (stateStep_preserve cfg n w k v hv hvn hk) hvn hk

theorem configStep_preserve (cfg : List (String × SktPy.PVal))
    (n w k : String) (v : SktPy.PVal) (hv : getK cfg k = some v)
    (hvn : v ≠ SktPy.PVal.none) :
    getK (SktPy.configStep cfg (n, w)) k = some v := by
  by_cases hn : n = k
  · subst hn
    have hgu := cliUnset_false_of_some cfg n v hv hvn
    simp only [SktPy.configStep, hgu]
    simpa using hv
  · unfold SktPy.configStep
    split_ifs
    · rw [getK_setK_ne _ _ _ _ hn]
      exact hv
    · exact hv

theorem configFold_preserve (items : List (String × String)) :
    ∀ (cfg : List (String × SktPy.PVal)) (k : String) (v : SktPy.PVal),
      getK cfg k = some v → v ≠ SktPy.PVal.none →
      getK (items.foldl SktPy.configStep cfg) k = some v := by
  induction items with
  | nil =>
      intro cfg k v hv _
      simpa using hv
  | cons item rest ih =>
      intro cfg k v hv hvn
      obtain ⟨n, w⟩ := item
      rw [List.foldl_cons]
      exact ih _ k v (configStep_preserve cfg n w k v hv hvn) hvn

theorem stateFold_sets (items : List (String × String)) :
    ∀ (cfg : List (String × SktPy.PVal)) (k v1 : String),
      SktPy.cliUnset cfg k = true → k ∈ SktPy.cliKeys →
      getK items k = some v1 →
      getK (items.foldl SktPy.stateStep cfg) k =
        some (SktPy.PVal.str v1) := by
  induction items with
  | nil =>
      intro cfg k v1 _ _ h
      simp [getK] at h
  | cons item rest ih =>
      intro cfg k v1 hcli hk hfind
      obtain ⟨n, w⟩ := item
      rw [List.foldl_cons]
      by_cases hn : n = k
      · subst hn
        have hv1 : w = v1 := by
          simpa [getK] using hfind
        subst hv1
        have hset : getK (SktPy.stateStep cfg (n, w)) n =
            some (SktPy.PVal.str w) := by
          simp only [SktPy.stateStep, hcli, if_true]
          exact getK_setK_same _ _ _
        exact stateFold_preserve rest _ n _ hset
          (fun h => SktPy.PVal.noConfusion h) hk
      · have hfind2 : getK rest k = some v1 := by
          simpa [getK, hn] using hfind
        have hcli2 : SktPy.cliUnset (SktPy.stateStep cfg (n, w)) k = true := by
          unfold SktPy.cliUnset at hcli ⊢
          rw [stateStep_getK_other cfg n w k hn hk]
          exact hcli
        exact ih _ k v1 hcli2 hk hfind2

/-- C5 counterexample: the [state] section of the rc file binds workdir but
the --state flag is false, so load_config ignores the state section
entirely and the value from the [config] section wins — the state-section
value does NOT take precedence for a key unset on the command line. -/
theorem C5_state_overlay_requires_flag_cex :
    getK (SktPy.load_config
        [("state", SktPy.PVal.bool false), ("workdir", SktPy.PVal.none)]
        true [("workdir", "/from-state")]
        true [("workdir", "/from-config")]) "workdir" =
      some (SktPy.PVal.str "/from-config") ∧
    getK [("workdir", "/from-state")] "workdir" = some "/from-state" := by
  exact ⟨rfl, rfl⟩

/-- C5 amended: a key given a non-None value on the command line is
never overwritten by the [state] or [config] sections of the rc file; and
for a key the command line left unset, WHEN the --state flag is given
the [state] section is overlaid first, so its value takes precedence
over a [config]-section value for the same key (without --state the
state section is ignored). -/
theorem C5_load_config_precedence_amended
    (cfg0 : List (String × SktPy.PVal)) (hasState hasConfig : Bool)
    (stateItems configItems : List (String × String)) :
    (∀ k v, getK cfg0 k = some v → v ≠ SktPy.PVal.none →
      k ∈ SktPy.cliKeys →
      getK (SktPy.load_config cfg0 hasState stateItems hasConfig
        configItems) k = some v) ∧
    (∀ k v1, SktPy.pvTruthy (getK cfg0 "state") = true →
      hasState = true → SktPy.cliUnset cfg0 k = true →
      k ∈ SktPy.cliKeys → getK stateItems k = some v1 →
      getK (SktPy.load_config cfg0 hasState stateItems hasConfig
        configItems) k = some (SktPy.PVal.str v1)) := by
  constructor
  · intro k v hv hvn hk
    simp only [SktPy.load_config]
    by_cases hc : (SktPy.pvTruthy (getK cfg0 "state") && hasState) = true
    · rw [if_pos hc]
      have h1 := stateFold_preserve stateItems cfg0 k v hv hvn hk
      by_cases hc2 : hasConfig = true
      · rw [if_pos hc2]
        exact configFold_preserve configItems _ k v h1 hvn
      · rw [if_neg hc2]
        exact h1
    · rw [if_neg hc]
      by_cases hc2 : hasConfig = true
      · rw [if_pos hc2]
        exact configFold_preserve configItems _ k v hv hvn
      · rw [if_neg hc2]
        exact hv
  · intro k v1 htruthy hs hcli hk hsi
    simp only [SktPy.load_config]
    have hc : (SktPy.pvTruthy (getK cfg0 "state") && hasState) = true := by
      rw [htruthy, hs]
      rfl
    rw [if_pos hc]
    have h1 : getK (stateItems.foldl SktPy.stateStep cfg0) k =
        some (SktPy.PVal.str v1) :=
      stateFold_sets stateItems cfg0 k v1 hcli hk hsi
    by_cases hc2 : hasConfig = true
    · rw [if_pos hc2]
      exact configFold_preserve configItems _ k _ h1
        (fun h => SktPy.PVal.noConfusion h)
    · rw [if_neg hc2]
      exact h1

/-- Witness for C5 amended: with --state enabled, a state-section value
for an unset CLI key survives a conflicting config-section value. -/
theorem C5_load_config_precedence_amended_witness :
    getK (SktPy.load_config
        [("state", SktPy.PVal.bool true), ("workdir", SktPy.PVal.none)]
        true [("workdir", "/from-state")]
        true [("workdir", "/from-config")]) "workdir" =
      some (SktPy.PVal.str "/from-state") := by
  exact (C5_load_config_precedence_amended
    [("state", SktPy.PVal.bool true), ("workdir", SktPy.PVal.none)]
    true true [("workdir", "/from-state")] [("workdir", "/from-config")]).2
    "workdir" "/from-state" rfl rfl rfl (by decide) rfl
